import Mathlib

/-!
Roblox feedback bridge (`server.js`): rate limiter, validator, message builder, router.

A shallow embedding of `src/server.js`.  JavaScript strings are sequences of
UTF-16 code units, so `String.prototype.length` is `List.length`.  `Date.now()`
is a natural number of milliseconds and is passed explicitly; the mutable
`rateLimiter` map is passed and returned explicitly.
-/

namespace FeedbackBridge

/-! ## JavaScript strings -/

/-- A JavaScript string: its UTF-16 code units, in order. -/
abbrev JSString := List Nat

/-- UTF-16 encoding of one Unicode scalar value. -/
def utf16 (c : Char) : List Nat :=
  if c.toNat < 0x10000 then [c.toNat]
  else [0xD800 + (c.toNat - 0x10000) / 0x400, 0xDC00 + (c.toNat - 0x10000) % 0x400]

/-- The JavaScript string denoted by a source literal. -/
def js (s : String) : JSString := s.toList.flatMap utf16

/-! ## Rate limiter (`server.js` lines 50-87) -/

/-- The value stored per key in `rateLimiter`: `{ count, resetAt }`. -/
structure RateWindow where
  count : Nat
  resetAt : Nat
deriving DecidableEq, Repr

/-- The `rateLimiter` map: entries in insertion order. -/
abbrev RateTable := List (JSString × RateWindow)

/-- The method `Map.prototype.get`: the value stored under `ip`, if any. -/
def mapGet : RateTable → JSString → Option RateWindow
  | [], _ => none
  | (k, v) :: rest, ip => if k = ip then some v else mapGet rest ip

/-- The method `Map.prototype.set`: overwrite in place, or append a new entry. -/
def mapSet : RateTable → JSString → RateWindow → RateTable
  | [], ip, v => [(ip, v)]
  | (k, w) :: rest, ip, v => if k = ip then (k, v) :: rest else (k, w) :: mapSet rest ip v

/-- The constant `CONFIG.RATE_LIMIT`. -/
def RATE_LIMIT : Nat := 30

/-- The constant `windowMs = 60 * 1000`. -/
def windowMs : Nat := 60 * 1000

/-- The call `checkRateLimit(ip)` at `Date.now() = now`: the returned boolean and the
map afterwards.  The `none` case is the branch `!rateLimiter.has(ip)`;
`data.count++` mutates the stored object, i.e. rewrites the entry in place. -/
def checkRateLimit (rateLimiter : RateTable) (ip : JSString) (now : Nat) : Bool × RateTable :=
  match mapGet rateLimiter ip with
  | none => (true, mapSet rateLimiter ip { count := 1, resetAt := now + windowMs })
  | some data =>
    if now > data.resetAt then
      (true, mapSet rateLimiter ip { count := 1, resetAt := now + windowMs })
    else if data.count ≥ RATE_LIMIT then
      (false, rateLimiter)
    else
      (true, mapSet rateLimiter ip { data with count := data.count + 1 })

/-- The `setInterval` callback at `Date.now() = now`: delete every entry with
`now > data.resetAt`. -/
def sweep (rateLimiter : RateTable) (now : Nat) : RateTable :=
  rateLimiter.filter (fun e => !decide (now > e.2.resetAt))

/-- A run of `checkRateLimit` calls `(ip, now)`, in order: the booleans
returned, each tagged with its key, and the final map. -/
def runCalls : RateTable → List (JSString × Nat) → List (JSString × Bool) × RateTable
  | t, [] => ([], t)
  | t, (ip, now) :: rest =>
    let r := checkRateLimit t ip now
    let rs := runCalls r.2 rest
    ((ip, r.1) :: rs.1, rs.2)

/-- The booleans returned to key `S` in a run, in call order. -/
def resultsFor (S : JSString) (rs : List (JSString × Bool)) : List Bool :=
  (rs.filter (fun r => decide (r.1 = S))).map Prod.snd

/-- The calls of a run made for key `S`. -/
def callsFor (S : JSString) (calls : List (JSString × Nat)) : List (JSString × Nat) :=
  calls.filter (fun c => decide (c.1 = S))

/-- One event on the limiter table: a `checkRateLimit` call or a sweep. -/
inductive LimiterEvent where
  | check (ip : JSString) (now : Nat)
  | sweepAt (now : Nat)
deriving DecidableEq, Repr

/-- The table after one event. -/
def applyEvent (t : RateTable) : LimiterEvent → RateTable
  | .check ip now => (checkRateLimit t ip now).2
  | .sweepAt now => sweep t now

/-- The table after a sequence of events, starting from `t`. -/
def applyEvents (t : RateTable) (es : List LimiterEvent) : RateTable :=
  es.foldl applyEvent t

/-- The keys of a `Map` are pairwise distinct. -/
def uniqueKeys (t : RateTable) : Prop := (t.map Prod.fst).Nodup

/-- Every stored window has a count between 1 and the limit. -/
def countInRange (t : RateTable) : Prop :=
  ∀ e ∈ t, 1 ≤ e.2.count ∧ e.2.count ≤ RATE_LIMIT

/-! ## JavaScript values and coercions -/

/-- The method `String.prototype.includes`. -/
def includes : JSString → JSString → Bool
  | [], sub => sub.isEmpty
  | c :: cs, sub => sub.isPrefixOf (c :: cs) || includes cs sub

/-- A value produced by `JSON.parse`.  Numbers are the integer-valued ones;
`props` lists an object's own properties. -/
inductive JSValue where
  | null
  | bool (b : Bool)
  | num (n : Int)
  | str (s : JSString)
  | arr (items : List JSValue)
  | obj (props : List (JSString × JSValue))
deriving Repr

/-- A thrown `Error` object, observed through its `message`. -/
structure JSError where
  message : JSString
deriving DecidableEq, Repr

/-- Completion of an evaluation: a value, a thrown error, or `unmodelled` when
the code applies `ToNumber` to a string, array or object, a conversion this
embedding does not compute. -/
inductive Eval (α : Type) where
  | ok (a : α)
  | throw (e : JSError)
  | unmodelled
deriving DecidableEq, Repr

/-- Sequencing of evaluations: the first abrupt completion wins. -/
def Eval.bind {α β : Type} : Eval α → (α → Eval β) → Eval β
  | .ok a, f => f a
  | .throw e, _ => .throw e
  | .unmodelled, _ => .unmodelled

instance : Monad Eval where
  pure := Eval.ok
  bind := Eval.bind

/-- The conversion `ToBoolean`; `none` is `undefined`. -/
def truthy : Option JSValue → Bool
  | none => false
  | some .null => false
  | some (.bool b) => b
  | some (.num n) => decide (n ≠ 0)
  | some (.str s) => !s.isEmpty
  | some (.arr _) => true
  | some (.obj _) => true

/-- The own property `name` of an object, `none` when there is none. -/
def ownProp : List (JSString × JSValue) → JSString → Option JSValue
  | [], _ => none
  | (k, v) :: rest, name => if k = name then some v else ownProp rest name

/-- The property read `v[name]` for the names the server reads from the parsed
body (`feedback`, `username`, `category`, `id`, `userId`, `placeId`): no
built-in prototype defines them, so the read gives an own property of an object
and `undefined` otherwise; reading from `null` throws. -/
def getField (v : JSValue) (name : JSString) : Eval (Option JSValue) :=
  match v with
  | .null =>
    .throw ⟨js "Cannot read properties of null (reading \x27" ++ name ++ js "\x27)"⟩
  | .obj props => .ok (ownProp props name)
  | _ => .ok none

mutual
/-- The conversion `ToString` of a parsed value, as a template literal applies it.  An object
with an own `toString` property (never callable) has no primitive value. -/
def toStr : JSValue → Eval JSString
  | .null => .ok (js "null")
  | .bool true => .ok (js "true")
  | .bool false => .ok (js "false")
  | .num n => .ok (js (toString n))
  | .str s => .ok s
  | .arr items => joinItems items
  | .obj props =>
    if (ownProp props (js "toString")).isSome then
      .throw ⟨js "Cannot convert object to primitive value"⟩
    else .ok (js "[object Object]")
/-- The method `Array.prototype.join` with the default separator: `null` items give the
empty string. -/
def joinItems : List JSValue → Eval JSString
  | [] => .ok []
  | [.null] => .ok []
  | [x] => toStr x
  | .null :: rest =>
    match joinItems rest with
    | .ok r => .ok (js "," ++ r)
    | .throw e => .throw e
    | .unmodelled => .unmodelled
  | x :: rest =>
    match toStr x with
    | .ok s =>
      match joinItems rest with
      | .ok r => .ok (s ++ js "," ++ r)
      | .throw e => .throw e
      | .unmodelled => .unmodelled
    | .throw e => .throw e
    | .unmodelled => .unmodelled
end

/-- The conversion `ToString` of a possibly `undefined` value. -/
def toStrOpt : Option JSValue → Eval JSString
  | none => .ok (js "undefined")
  | some v => toStr v

/-- The conversion `ToNumber` of a possibly `undefined` value; `none` is `NaN`. -/
def toNumber : Option JSValue → Eval (Option Int)
  | none => .ok none
  | some .null => .ok (some 0)
  | some (.bool b) => .ok (some (if b then 1 else 0))
  | some (.num n) => .ok (some n)
  | some (.str _) => .unmodelled
  | some (.arr _) => .unmodelled
  | some (.obj _) => .unmodelled

/-- The comparison `x < bound` with a number literal on the right. -/
def lessThan (x : Option JSValue) (bound : Int) : Eval Bool :=
  match toNumber x with
  | .ok (some n) => .ok (decide (n < bound))
  | .ok none => .ok false
  | .throw e => .throw e
  | .unmodelled => .unmodelled

/-- The comparison `x > bound` with a number literal on the right. -/
def greaterThan (x : Option JSValue) (bound : Int) : Eval Bool :=
  match toNumber x with
  | .ok (some n) => .ok (decide (n > bound))
  | .ok none => .ok false
  | .throw e => .throw e
  | .unmodelled => .unmodelled

/-- The property read `v.length`: the code-unit count of a string, the item
count of an array, an own property of an object, `undefined` on a number or
boolean. -/
def lengthOf : Option JSValue → Eval (Option JSValue)
  | none => .throw ⟨js "Cannot read properties of undefined (reading \x27length\x27)"⟩
  | some .null => .throw ⟨js "Cannot read properties of null (reading \x27length\x27)"⟩
  | some (.str s) => .ok (some (.num s.length))
  | some (.arr items) => .ok (some (.num items.length))
  | some (.obj props) => .ok (ownProp props (js "length"))
  | some (.bool _) => .ok none
  | some (.num _) => .ok none

/-- The method call `v.substring(0, n)`, `callee` being the source text of the
callee: only a string has the method. -/
def substring0 (callee : JSString) (v : Option JSValue) (n : Nat) : Eval JSString :=
  match v with
  | some (.str s) => .ok (s.take n)
  | none => .throw ⟨js "Cannot read properties of undefined (reading \x27substring\x27)"⟩
  | some .null => .throw ⟨js "Cannot read properties of null (reading \x27substring\x27)"⟩
  | _ => .throw ⟨callee ++ js " is not a function"⟩

/-! ## `JSON.stringify` -/

/-- One lower-case hexadecimal digit. -/
def hexDigit (n : Nat) : Nat := if n < 10 then 48 + n else 87 + n

/-- The escape `\uXXXX` of a code unit. -/
def unicodeEscape (c : Nat) : JSString :=
  [92, 117, hexDigit (c / 4096 % 16), hexDigit (c / 256 % 16), hexDigit (c / 16 % 16),
    hexDigit (c % 16)]

/-- The JSON text of one code unit that is not part of a surrogate pair:
escapes for the quote, the backslash, control characters and lone surrogates. -/
def escapeUnit (c : Nat) : JSString :=
  if c = 34 then [92, 34]
  else if c = 92 then [92, 92]
  else if c = 8 then [92, 98]
  else if c = 12 then [92, 102]
  else if c = 10 then [92, 110]
  else if c = 13 then [92, 114]
  else if c = 9 then [92, 116]
  else if c < 32 then unicodeEscape c
  else if 0xD800 ≤ c ∧ c < 0xE000 then unicodeEscape c
  else [c]

/-- The body of `QuoteJSONString`: a surrogate pair is copied, every other code
unit goes through `escapeUnit`. -/
def quoteUnits : JSString → JSString
  | [] => []
  | [c] => escapeUnit c
  | c :: d :: rest =>
    if (0xD800 ≤ c ∧ c < 0xDC00) ∧ (0xDC00 ≤ d ∧ d < 0xE000) then c :: d :: quoteUnits rest
    else escapeUnit c ++ quoteUnits (d :: rest)

/-- The operation `QuoteJSONString`. -/
def quoteJSON (s : JSString) : JSString := [34] ++ quoteUnits s ++ [34]

mutual
/-- The text `JSON.stringify` gives for a parsed value (no indentation). -/
def jsonStringify : JSValue → JSString
  | .null => js "null"
  | .bool true => js "true"
  | .bool false => js "false"
  | .num n => js (toString n)
  | .str s => quoteJSON s
  | .arr items => js "[" ++ stringifyItems items ++ js "]"
  | .obj props => js "\x7b" ++ stringifyProps props ++ js "\x7d"
/-- The items of an array, comma separated. -/
def stringifyItems : List JSValue → JSString
  | [] => []
  | [x] => jsonStringify x
  | x :: rest => jsonStringify x ++ js "," ++ stringifyItems rest
/-- The properties of an object, comma separated. -/
def stringifyProps : List (JSString × JSValue) → JSString
  | [] => []
  | [(k, v)] => quoteJSON k ++ js ":" ++ jsonStringify v
  | (k, v) :: rest => quoteJSON k ++ js ":" ++ jsonStringify v ++ js "," ++ stringifyProps rest
end

/-! ## Configuration (`server.js` lines 19-48) -/

/-- The table `CONFIG.CATEGORY_COLORS`. -/
def CATEGORY_COLORS : List (JSString × Nat) :=
  [(js "Bug Report", 0xff4444), (js "Suggestion", 0x6464ff), (js "Gameplay", 0x44dd88),
    (js "Other", 0xffcc44)]

/-- The table `CONFIG.CATEGORY_ICONS`. -/
def CATEGORY_ICONS : List (JSString × JSString) :=
  [(js "Bug Report", js "🐛"), (js "Suggestion", js "💡"), (js "Gameplay", js "🎮"),
    (js "Other", js "📝")]

/-- The property names every object literal inherits from `Object.prototype`. -/
def objectPrototypeKeys : List JSString :=
  [js "constructor", js "__defineGetter__", js "__defineSetter__", js "hasOwnProperty",
    js "__lookupGetter__", js "__lookupSetter__", js "isPrototypeOf",
    js "propertyIsEnumerable", js "toString", js "valueOf", js "__proto__",
    js "toLocaleString"]

/-- What `table[key] || fallback` evaluates to: a configured or fallback value,
or the member of `Object.prototype` that the read `table[key]` finds. -/
inductive Selected (α : Type) where
  | value (a : α)
  | inherited (key : JSString)
deriving DecidableEq, Repr

/-- The expression `table[key] || fallback` on a `CONFIG` table, all of whose
own values are truthy. -/
def selectFrom {α : Type} (table : List (JSString × α)) (key : JSString) (fallback : α) :
    Selected α :=
  match table.lookup key with
  | some a => .value a
  | none => if key ∈ objectPrototypeKeys then .inherited key else .value fallback

/-- The conversion `ToString` of a member of `Object.prototype`: the prototype itself under
`__proto__`, a native function otherwise. -/
def inheritedText (key : JSString) : JSString :=
  if key = js "__proto__" then js "[object Object]"
  else if key = js "constructor" then js "function Object() \x7b [native code] \x7d"
  else js "function " ++ key ++ js "() \x7b [native code] \x7d"

/-- The conversion `ToString` of a selected icon. -/
def iconText : Selected JSString → JSString
  | .value s => s
  | .inherited key => inheritedText key

/-! ## Message builder (`server.js` lines 136-211) -/

/-- One entry of `embed.fields`; a `value` of `none` is `undefined`. -/
structure EmbedField where
  name : JSString
  value : Option JSValue
  inline : Bool

/-- The `embed` object. -/
structure Embed where
  title : JSString
  description : JSString
  color : Selected Nat
  fields : List EmbedField
  footerText : JSString
  timestamp : JSString

/-- The object returned by `buildDiscordPayload`. -/
structure DiscordPayload where
  username : JSString
  avatar_url : JSString
  embeds : List Embed

/-- One property of the destructuring `const \x7b ... \x7d = feedbackData`. -/
def destructure (feedbackData : JSValue) (name : JSString) : Eval (Option JSValue) :=
  match feedbackData with
  | .null =>
    .throw ⟨js "Cannot destructure property \x27id\x27 of \x27feedbackData\x27 as it is null."⟩
  | .obj props => .ok (ownProp props name)
  | _ => .ok none

/-- The strict comparison `username !== "Anonymous"`. -/
def notAnonymous : Option JSValue → Bool
  | some (.str s) => !decide (s = js "Anonymous")
  | _ => true

/-- The `feedbackText` constant:
`feedback.length > 1000 ? feedback.substring(0, 997) + "..." : feedback`. -/
def feedbackTextOf (feedback : Option JSValue) : Eval (Option JSValue) := do
  let len ← lengthOf feedback
  let long ← greaterThan len 1000
  if long then
    let head ← substring0 (js "feedback.substring") feedback 997
    pure (some (.str (head ++ js "...")))
  else
    pure feedback

/-- The `profileUrl` constant:
`username !== "Anonymous" && userId ? <profile link> : null`. -/
def profileUrlOf (username userId : Option JSValue) : Eval (Option JSString) :=
  if notAnonymous username && truthy userId then
    match toStrOpt userId with
    | .ok u => .ok (some (js "https://www.roblox.com/users/" ++ u ++ js "/profile"))
    | .throw e => .throw e
    | .unmodelled => .unmodelled
  else .ok none

/-- The `usernameDisplay` constant:
`profileUrl && username !== "Anonymous" ? <markdown link> : username`.  A profile
link, when there is one, is a non-empty string. -/
def usernameDisplayOf (username : Option JSValue) (profileUrl : Option JSString) :
    Eval (Option JSValue) :=
  match profileUrl with
  | some link =>
    if notAnonymous username then
      match toStrOpt username with
      | .ok u => .ok (some (.str (js "[" ++ u ++ js "](" ++ link ++ js ")")))
      | .throw e => .throw e
      | .unmodelled => .unmodelled
    else .ok username
  | none => .ok username

/-- The `gamePlaceUrl` constant: `placeId ? <game link> : null`. -/
def gamePlaceUrlOf (placeId : Option JSValue) : Eval (Option JSString) :=
  if truthy placeId then
    match toStrOpt placeId with
    | .ok p => .ok (some (js "https://www.roblox.com/games/" ++ p))
    | .throw e => .throw e
    | .unmodelled => .unmodelled
  else .ok none

/-- The substitution `placeId || "N/A"` of the footer text. -/
def placeTextOf (placeId : Option JSValue) : Eval JSString :=
  if truthy placeId then toStrOpt placeId else .ok (js "N/A")

/-- The three fields every embed has, and the game link when there is one. -/
def embedFields (usernameDisplay category : Option JSValue) (idText : JSString)
    (gamePlaceUrl : Option JSString) : List EmbedField :=
  [ { name := js "👤 From", value := usernameDisplay, inline := true },
    { name := js "🏷️ Category", value := category, inline := true },
    { name := js "🆔 ID", value := some (.str (js "\x60" ++ idText ++ js "\x60")),
      inline := true } ] ++
  (match gamePlaceUrl with
   | some link =>
     [{ name := js "🎮 Game", value := some (.str (js "[View Game](" ++ link ++ js ")")),
        inline := true }]
   | none => [])

/-- The function `buildDiscordPayload(feedbackData)`, with `new Date().toISOString()` given
as `nowIso`. -/
def buildDiscordPayload (feedbackData : JSValue) (nowIso : JSString) : Eval DiscordPayload := do
  let id ← destructure feedbackData (js "id")
  let username ← destructure feedbackData (js "username")
  let userId ← destructure feedbackData (js "userId")
  let category ← destructure feedbackData (js "category")
  let feedback ← destructure feedbackData (js "feedback")
  let placeId ← destructure feedbackData (js "placeId")
  let categoryKey ← toStrOpt category
  let color := selectFrom CATEGORY_COLORS categoryKey 0x888888
  let icon := selectFrom CATEGORY_ICONS categoryKey (js "📝")
  let feedbackText ← feedbackTextOf feedback
  let profileUrl ← profileUrlOf username userId
  let usernameDisplay ← usernameDisplayOf username profileUrl
  let gamePlaceUrl ← gamePlaceUrlOf placeId
  let categoryText ← toStrOpt category
  let shown ← toStrOpt feedbackText
  let idText ← toStrOpt id
  let placeText ← placeTextOf placeId
  let embed : Embed :=
    { title := iconText icon ++ js " New " ++ categoryText ++ js " Feedback"
      description := js "\x60\x60\x60\n" ++ shown ++ js "\n\x60\x60\x60"
      color := color
      fields := embedFields usernameDisplay category idText gamePlaceUrl
      footerText := js "Roblox Feedback System • Place ID: " ++ placeText
      timestamp := nowIso }
  pure
    { username := js "Feedback Bot 📬"
      avatar_url := js ("https://tr.rbxcdn.com/180DAY-8f5e39b99f2d5e31d3d8b3d5b8e9d9b3/420/420/" ++
        "AvatarHeadshot/Png/noFilter")
      embeds := [embed] }

/-! ## Forwarder (`server.js` lines 92-131) -/

/-- How the outbound request ends, i.e. which callback settles the promise
first. -/
inductive ForwardOutcome where
  /-- the `end` event of the downstream response -/
  | response (statusCode : Nat) (data : JSString)
  /-- the `error` event of the request, with the error's message -/
  | error (message : JSString)
  /-- the 10 second timeout -/
  | timeout
  /-- an exception thrown inside the executor (`new URL`, `https.request`) -/
  | threw (message : JSString)
deriving DecidableEq, Repr

/-- The value the promise resolves with: `{ success: true, status }`. -/
structure Ack where
  success : Bool
  status : Nat
deriving DecidableEq, Repr

/-- The expression `await sendToDiscord(webhookUrl, payload)`: the resolved value, or the
rejection as a thrown error. -/
def sendToDiscord (_webhookUrl : JSString) (_payload : DiscordPayload) (net : ForwardOutcome) :
    Eval Ack :=
  match net with
  | .response statusCode data =>
    if statusCode ≥ 200 ∧ statusCode < 300 then .ok { success := true, status := statusCode }
    else .throw ⟨js "Discord responded with " ++ js (toString statusCode) ++ js ": " ++ data⟩
  | .error message => .throw ⟨message⟩
  | .timeout => .throw ⟨js "Request timeout"⟩
  | .threw message => .throw ⟨message⟩

/-! ## Submission handling (`server.js` lines 270-330) -/

/-- What the handler writes: the status of `res.writeHead` and the value given
to `JSON.stringify` for `res.end` (`none` for an empty body). -/
structure Response where
  status : Nat
  body : Option JSValue

/-- The text sent as the response body. -/
def Response.bodyText (r : Response) : JSString :=
  match r.body with
  | some v => jsonStringify v
  | none => []

/-- The object `{ error: msg }`. -/
def errorBody (msg : JSString) : JSValue := .obj [(js "error", .str msg)]

/-- The result of `JSON.parse(body)`: a value, or a `SyntaxError` with its
message. -/
inductive ParseOutcome where
  | value (v : JSValue)
  | syntaxError (message : JSString)

/-- The loop over `required`: the 400 response of the first falsy field, or
`none` when every field is truthy. -/
def checkRequired (feedbackData : JSValue) : List JSString → Eval (Option Response)
  | [] => .ok none
  | field :: rest =>
    match getField feedbackData field with
    | .ok v =>
      if !truthy v then
        .ok (some { status := 400, body := some (errorBody (js "Missing field: " ++ field)) })
      else checkRequired feedbackData rest
    | .throw e => .throw e
    | .unmodelled => .unmodelled

/-- The constant `required = ["feedback", "username", "category"]`. -/
def required : List JSString := [js "feedback", js "username", js "category"]

/-- The test `feedbackData.feedback.length < 5 || feedbackData.feedback.length > 1200`. -/
def lengthInvalid (feedbackData : JSValue) : Eval Bool := do
  let feedback ← getField feedbackData (js "feedback")
  let len ← lengthOf feedback
  let short ← lessThan len 5
  if short then pure true
  else
    let feedback2 ← getField feedbackData (js "feedback")
    let len2 ← lengthOf feedback2
    greaterThan len2 1200

/-- Validation (lines 275-290): the 400 response that rejects the submission,
or `none` when it passes. -/
def validate (feedbackData : JSValue) : Eval (Option Response) := do
  match ← checkRequired feedbackData required with
  | some r => pure (some r)
  | none =>
    if ← lengthInvalid feedbackData then
      pure (some { status := 400, body := some (errorBody (js "Invalid feedback length")) })
    else pure none

/-- The argument of the `console.log` call of lines 292-294. -/
def receivedLogLine (feedbackData : JSValue) : Eval JSString := do
  let username ← getField feedbackData (js "username")
  let u ← toStrOpt username
  let category ← getField feedbackData (js "category")
  let c ← toStrOpt category
  let feedback ← getField feedbackData (js "feedback")
  let head ← substring0 (js "feedbackData.feedback.substring") feedback 60
  pure (js "[Bridge] Received feedback from " ++ u ++ js " [" ++ c ++ js "]: " ++ head ++ js "...")

/-- The 200 response: `{ success: true, id: feedbackData.id, message }`; an
`undefined` id is left out by `JSON.stringify`. -/
def successResponse (id : Option JSValue) : Response :=
  { status := 200
    body := some (.obj ([(js "success", .bool true)] ++
      (match id with
       | some v => [(js "id", v)]
       | none => []) ++
      [(js "message", .str (js "Feedback forwarded to Discord"))])) }

/-- The `try` block of the `end` callback: its completion, and the payload
handed to `sendToDiscord` when that call is reached.  `webhookUrl` is
`CONFIG.DISCORD_WEBHOOK_URL`. -/
def tryBlock (webhookUrl : JSString) (parsed : ParseOutcome) (net : ForwardOutcome)
    (nowIso : JSString) : Eval Response × Option DiscordPayload :=
  match parsed with
  | .syntaxError message => (.throw ⟨message⟩, none)
  | .value feedbackData =>
    match validate feedbackData with
    | .throw e => (.throw e, none)
    | .unmodelled => (.unmodelled, none)
    | .ok (some rejection) => (.ok rejection, none)
    | .ok none =>
      match receivedLogLine feedbackData with
      | .throw e => (.throw e, none)
      | .unmodelled => (.unmodelled, none)
      | .ok _ =>
        if webhookUrl.isEmpty then
          (.ok { status := 503, body := some (errorBody (js "Discord webhook not configured")) },
            none)
        else
          match buildDiscordPayload feedbackData nowIso with
          | .throw e => (.throw e, none)
          | .unmodelled => (.unmodelled, none)
          | .ok discordPayload =>
            match sendToDiscord webhookUrl discordPayload net with
            | .throw e => (.throw e, some discordPayload)
            | .unmodelled => (.unmodelled, some discordPayload)
            | .ok _ =>
              match getField feedbackData (js "id") with
              | .ok id => (.ok (successResponse id), some discordPayload)
              | .throw e => (.throw e, some discordPayload)
              | .unmodelled => (.unmodelled, some discordPayload)

/-- The `catch` block (lines 317-329). -/
def catchBlock (error : JSError) : Response :=
  if includes error.message (js "JSON") then
    { status := 400, body := some (errorBody (js "Invalid JSON")) }
  else
    { status := 500
      body := some (.obj [(js "error", .str (js "Internal server error")),
        (js "details", .str error.message)]) }

/-- What one run of the `end` callback does. -/
structure Handled where
  response : Response
  /-- the payload handed to `sendToDiscord`, when the call is reached -/
  forwarded : Option DiscordPayload

/-- The `end` callback of a `POST /webhook` request: `none` only where the
`try` block is `unmodelled`. -/
def handleEnd (webhookUrl : JSString) (parsed : ParseOutcome) (net : ForwardOutcome)
    (nowIso : JSString) : Option Handled :=
  match tryBlock webhookUrl parsed net nowIso with
  | (.ok r, sent) => some { response := r, forwarded := sent }
  | (.throw e, sent) => some { response := catchBlock e, forwarded := sent }
  | (.unmodelled, _) => none

/-! ## Body decoding (`chunk.toString()`, line 261) -/

/-- The UTF-16 code units of a code point. -/
def utf16Units (cp : Nat) : List Nat :=
  if cp < 0x10000 then [cp]
  else [0xD800 + (cp - 0x10000) / 0x400, 0xDC00 + (cp - 0x10000) % 0x400]

/-- State of the UTF-8 decoder inside a multi-byte sequence: the bits read so
far, the number of continuation bytes still needed, and the range allowed for
the next byte. -/
structure Utf8Pending where
  codePoint : Nat
  needed : Nat
  lower : Nat
  upper : Nat
deriving DecidableEq, Repr

/-- A byte read while no sequence is pending: the code units it gives and the
sequence it opens.  A byte that cannot start a sequence gives U+FFFD. -/
def utf8Start (b : Nat) : List Nat × Option Utf8Pending :=
  if b ≤ 0x7F then ([b], none)
  else if 0xC2 ≤ b ∧ b ≤ 0xDF then ([], some ⟨b - 0xC0, 1, 0x80, 0xBF⟩)
  else if 0xE0 ≤ b ∧ b ≤ 0xEF then
    ([], some ⟨b - 0xE0, 2, if b = 0xE0 then 0xA0 else 0x80, if b = 0xED then 0x9F else 0xBF⟩)
  else if 0xF0 ≤ b ∧ b ≤ 0xF4 then
    ([], some ⟨b - 0xF0, 3, if b = 0xF0 then 0x90 else 0x80, if b = 0xF4 then 0x8F else 0xBF⟩)
  else ([0xFFFD], none)

/-- UTF-8 decoding with replacement: a byte outside the allowed range ends the
pending sequence with U+FFFD and is read again as a first byte; a sequence cut
off by the end of the input gives U+FFFD. -/
def utf8DecodeFrom : Option Utf8Pending → List Nat → JSString
  | none, [] => []
  | some _, [] => [0xFFFD]
  | none, b :: rest => (utf8Start b).1 ++ utf8DecodeFrom (utf8Start b).2 rest
  | some st, b :: rest =>
    if st.lower ≤ b ∧ b ≤ st.upper then
      if st.needed ≤ 1 then
        utf16Units (st.codePoint * 64 + (b - 0x80)) ++ utf8DecodeFrom none rest
      else
        utf8DecodeFrom (some ⟨st.codePoint * 64 + (b - 0x80), st.needed - 1, 0x80, 0xBF⟩) rest
    else
      [0xFFFD] ++ (utf8Start b).1 ++ utf8DecodeFrom (utf8Start b).2 rest

/-- The string `chunk.toString()` of a `Buffer` holding `bytes`. -/
def utf8Decode (bytes : List Nat) : JSString := utf8DecodeFrom none bytes

/-- The UTF-8 bytes of `n` euro signs (U+20AC), three bytes each. -/
def euroBytes (n : Nat) : List Nat := (List.replicate n [0xE2, 0x82, 0xAC]).flatten

/-! ## Request router (`server.js` lines 216-338) -/

/-- What the handler reads from a request before its body: the method, the
`pathname` of `url.parse(req.url, true)` (`none` for `null`), the
`x-forwarded-for` header and `req.socket.remoteAddress` (`none` for
`undefined`). -/
structure Request where
  method : JSString
  pathname : Option JSString
  forwardedFor : Option JSString
  remoteAddress : Option JSString

/-- The constant `clientIp`:
`req.headers["x-forwarded-for"] || req.socket.remoteAddress || "unknown"`. -/
def clientIp (req : Request) : JSString :=
  match req.forwardedFor with
  | some (c :: cs) => c :: cs
  | _ =>
    match req.remoteAddress with
    | some (c :: cs) => c :: cs
    | _ => js "unknown"

/-- The object sent by the health check; `discord_configured` is
`!!CONFIG.DISCORD_WEBHOOK_URL`. -/
def healthBody (webhookUrl nowIso : JSString) : JSValue :=
  .obj [(js "status", .str (js "online")),
    (js "service", .str (js "Roblox Feedback Bridge")),
    (js "version", .str (js "2.0")),
    (js "timestamp", .str nowIso),
    (js "discord_configured", .bool (!webhookUrl.isEmpty))]

/-- The argument of the `console.log` call of line 316. -/
def sentLogLine (feedbackData : JSValue) : Eval JSString := do
  let id ← getField feedbackData (js "id")
  let t ← toStrOpt id
  pure (js "[Bridge] ✓ Sent to Discord - ID: " ++ t)

/-- What a run of the `end` callback does, statement by statement: the
responses it writes, in order, and the payload handed to `sendToDiscord`. -/
structure EndTrace where
  writes : List Response
  forwarded : Option DiscordPayload

/-- The `end` callback (lines 270-330) with every `res.writeHead`/`res.end`
pair recorded, the one of the `catch` block included; `none` where the
evaluation is `unmodelled`. -/
def endCallback (webhookUrl : JSString) (parsed : ParseOutcome) (net : ForwardOutcome)
    (nowIso : JSString) : Option EndTrace :=
  match parsed with
  | .syntaxError message => some { writes := [catchBlock ⟨message⟩], forwarded := none }
  | .value feedbackData =>
    match validate feedbackData with
    | .unmodelled => none
    | .throw e => some { writes := [catchBlock e], forwarded := none }
    | .ok (some rejection) => some { writes := [rejection], forwarded := none }
    | .ok none =>
      match receivedLogLine feedbackData with
      | .unmodelled => none
      | .throw e => some { writes := [catchBlock e], forwarded := none }
      | .ok _ =>
        if webhookUrl.isEmpty then
          some { writes := [{ status := 503
                              body := some (errorBody (js "Discord webhook not configured")) }]
                 forwarded := none }
        else
          match buildDiscordPayload feedbackData nowIso with
          | .unmodelled => none
          | .throw e => some { writes := [catchBlock e], forwarded := none }
          | .ok discordPayload =>
            match sendToDiscord webhookUrl discordPayload net with
            | .unmodelled => none
            | .throw e => some { writes := [catchBlock e], forwarded := some discordPayload }
            | .ok _ =>
              match getField feedbackData (js "id") with
              | .unmodelled => none
              | .throw e => some { writes := [catchBlock e], forwarded := some discordPayload }
              | .ok id =>
                match sentLogLine feedbackData with
                | .unmodelled => none
                | .throw e =>
                  some { writes := [successResponse id, catchBlock e]
                         forwarded := some discordPayload }
                | .ok _ =>
                  some { writes := [successResponse id], forwarded := some discordPayload }

/-- An event delivered to the listeners of a `POST /webhook` request: a `data`
event with the bytes of its chunk, or the `end` event, given with the result of
`JSON.parse(body)`, the way the outbound request ends if it is made, and the
value of `new Date().toISOString()`. -/
inductive RequestEvent where
  | data (chunk : List Nat)
  | endOfBody (parsed : ParseOutcome) (net : ForwardOutcome) (nowIso : JSString)

/-- Where a request stands: its listeners are attached and `body` holds the
text read so far, or no listener will run again. -/
inductive Phase where
  | reading (body : JSString)
  | closed
deriving DecidableEq, Repr

/-- The state of one request: its phase, the responses written so far, the
payload handed to `sendToDiscord`, and whether every step so far was within
the embedding. -/
structure Exchange where
  phase : Phase
  writes : List Response
  forwarded : Option DiscordPayload
  modelled : Bool

/-- A request admitted by the rate limiter, its listeners just attached. -/
def admitted : Exchange :=
  { phase := .reading [], writes := [], forwarded := none, modelled := true }

/-- A request answered by the handler itself, with no listener attached. -/
def answered (r : Response) : Exchange :=
  { phase := .closed, writes := [r], forwarded := none, modelled := true }

/-- A request refused by the rate limiter. -/
def rateLimited : Exchange :=
  answered { status := 429, body := some (errorBody (js "Rate limit exceeded")) }

/-- The request handler up to its `return` (lines 216-338), at
`Date.now() = now` and `new Date().toISOString() = nowIso`: the state of the
request and the rate limiter map afterwards. -/
def dispatch (webhookUrl : JSString) (rateLimiter : RateTable) (req : Request) (now : Nat)
    (nowIso : JSString) : Exchange × RateTable :=
  if req.method = js "OPTIONS" then
    (answered { status := 204, body := none }, rateLimiter)
  else if req.method = js "GET" ∧ req.pathname = some (js "/") then
    (answered { status := 200, body := some (healthBody webhookUrl nowIso) }, rateLimiter)
  else if req.method = js "POST" ∧ req.pathname = some (js "/webhook") then
    if !(checkRateLimit rateLimiter (clientIp req) now).1 then
      (rateLimited, (checkRateLimit rateLimiter (clientIp req) now).2)
    else
      (admitted, (checkRateLimit rateLimiter (clientIp req) now).2)
  else
    (answered { status := 404, body := some (errorBody (js "Not found")) }, rateLimiter)

/-- The listeners of lines 260-330 on one event.  After `req.destroy()` and
after the `end` event the stream delivers nothing more, so a closed request
ignores every event. -/
def step (webhookUrl : JSString) (x : Exchange) (ev : RequestEvent) : Exchange :=
  match x.phase with
  | .closed => x
  | .reading body =>
    match ev with
    | .data chunk =>
      if (body ++ utf8Decode chunk).length > 5000 then
        { x with
          phase := .closed
          writes := x.writes ++
            [{ status := 413, body := some (errorBody (js "Payload too large")) }] }
      else
        { x with phase := .reading (body ++ utf8Decode chunk) }
    | .endOfBody parsed net nowIso =>
      match endCallback webhookUrl parsed net nowIso with
      | some tr =>
        { x with phase := .closed, writes := x.writes ++ tr.writes, forwarded := tr.forwarded }
      | none => { x with phase := .closed, modelled := false }

/-- The state of a request after a sequence of events. -/
def run (webhookUrl : JSString) (x : Exchange) (events : List RequestEvent) : Exchange :=
  events.foldl (step webhookUrl) x

/-- A record whose feedback is the number 12345. -/
def numericFeedbackBody : JSValue :=
  .obj [(js "username", .str (js "Bob")), (js "category", .str (js "Bug Report")),
    (js "feedback", .num 12345)]

/-! ## Reading the specification -/

/-- A required field as the specification describes a missing one: absent
(`undefined`), `null`, or an empty value, the empty string for a text and
`false` or `0` for a field sent as a boolean or a number. -/
def absentOrEmpty : Option JSValue → Bool
  | none => true
  | some .null => true
  | some (.str s) => decide (s = [])
  | some (.bool b) => decide (b = false)
  | some (.num n) => decide (n = 0)
  | some (.arr _) => false
  | some (.obj _) => false

/-- The first required field, in the order feedback, username, category, that
is absent or empty in a record with own properties `props`. -/
def firstMissing (props : List (JSString × JSValue)) : Option JSString :=
  [js "feedback", js "username", js "category"].find? (fun f => absentOrEmpty (ownProp props f))

/-- The text of the response written by a run of the `end` callback. -/
def responseText : Option Handled → JSString
  | some h => h.response.bodyText
  | none => []

/-- The status of the response written by a run of the `end` callback. -/
def responseStatus : Option Handled → Option Nat
  | some h => some h.response.status
  | none => none

/-- Whether a run of the `end` callback reached `sendToDiscord`. -/
def forwardAttempted : Option Handled → Bool
  | some h => h.forwarded.isSome
  | none => false

/-! ## Sample inputs -/

/-- The submission of the specification scenario:
`{username: "Bob", category: "Bug Report", feedback: "a".repeat(10)}`. -/
def sampleBody : JSValue :=
  .obj [(js "username", .str (js "Bob")), (js "category", .str (js "Bug Report")),
    (js "feedback", .str (js "aaaaaaaaaa"))]

/-- A configured destination. -/
def sampleUrl : JSString := js "https://discord.com/api/webhooks/1/token"

/-- A value of `new Date().toISOString()`. -/
def sampleIso : JSString := js "2024-01-01T00:00:00.000Z"

/-- A downstream answer with status 400 whose body mentions JSON. -/
def sampleRejection : ForwardOutcome :=
  .response 400
    (js "\x7b\"message\": \"The request body contains invalid JSON.\", \"code\": 50109\x7d")

/-- The sample submission with another category. -/
def sampleWithCategory (category : JSString) : JSValue :=
  .obj [(js "username", .str (js "Bob")), (js "category", .str category),
    (js "feedback", .str (js "aaaaaaaaaa"))]

/-- The embed of the payload built for `feedbackData`, when the builder
returns one. -/
def builtEmbed (feedbackData : JSValue) (nowIso : JSString) : Option Embed :=
  match buildDiscordPayload feedbackData nowIso with
  | .ok p => p.embeds.head?
  | _ => none

/-- The payload built for `sampleBody`. -/
def samplePayload : DiscordPayload :=
  match buildDiscordPayload sampleBody sampleIso with
  | .ok p => p
  | _ => { username := [], avatar_url := [], embeds := [] }

/-! ## Rate limiter: lemmas -/

theorem mapGet_mapSet_same (t : RateTable) (ip : JSString) (v : RateWindow) :
    mapGet (mapSet t ip v) ip = some v := by
  induction t with
  | nil => simp [mapSet, mapGet]
  | cons e rest ih =>
    obtain ⟨k, w⟩ := e
    by_cases h : k = ip
    · simp [mapSet, mapGet, h]
    · simp [mapSet, mapGet, h, ih]

theorem mapGet_mapSet_other (t : RateTable) (ip k' : JSString) (v : RateWindow)
    (hne : ip ≠ k') : mapGet (mapSet t ip v) k' = mapGet t k' := by
  induction t with
  | nil => simp [mapSet, mapGet, hne]
  | cons e rest ih =>
    obtain ⟨k, w⟩ := e
    by_cases h : k = ip
    · subst h
      simp [mapSet, mapGet, hne]
    · by_cases h2 : k = k'
      · subst h2
        simp [mapSet, mapGet, h]
      · simp [mapSet, mapGet, h, h2, ih]

theorem checkRateLimit_other (t : RateTable) (ip k' : JSString) (now : Nat)
    (hne : ip ≠ k') : mapGet (checkRateLimit t ip now).2 k' = mapGet t k' := by
  unfold checkRateLimit
  split
  · exact mapGet_mapSet_other _ _ _ _ hne
  · split
    · exact mapGet_mapSet_other _ _ _ _ hne
    · split
      · rfl
      · exact mapGet_mapSet_other _ _ _ _ hne

/-- Inside a live window holding `c` admissions, the next calls for `S` are
admitted while the running count stays below the limit. -/
theorem resultsFor_live (S : JSString) (R : Nat) (calls : List (JSString × Nat)) :
    ∀ (t : RateTable) (c : Nat), mapGet t S = some { count := c, resetAt := R } →
      (∀ x ∈ calls, x.1 = S → x.2 ≤ R) →
      resultsFor S (runCalls t calls).1 =
        (List.range (callsFor S calls).length).map (fun i => decide (c + i < RATE_LIMIT)) := by
  induction calls with
  | nil => intro t c _ _; simp [runCalls, resultsFor, callsFor]
  | cons x rest ih =>
    intro t c hget hle
    obtain ⟨ip, now⟩ := x
    have hrest : ∀ y ∈ rest, y.1 = S → y.2 ≤ R := fun y hy => hle y (List.mem_cons_of_mem _ hy)
    by_cases hip : ip = S
    · subst hip
      have hnow : now ≤ R := hle (ip, now) (List.mem_cons_self _ _) rfl
      have hnot : ¬ now > R := Nat.not_lt.mpr hnow
      by_cases hc : c ≥ RATE_LIMIT
      · have hstep : checkRateLimit t ip now = (false, t) := by
          simp [checkRateLimit, hget, hnot, hc]
        have := ih t c hget hrest
        simp only [runCalls, hstep, resultsFor, callsFor, List.filter_cons, decide_True,
          if_true, List.map_cons, List.length_cons, List.range_succ_eq_map] at this ⊢
        rw [this]
        simp only [List.map_cons, List.map_map, Nat.add_zero, List.cons.injEq]
        refine ⟨by simp; omega, ?_⟩
        apply List.map_congr_left
        intro i _
        have h1 : ¬ c + i < RATE_LIMIT := by omega
        have h2 : ¬ c + (i + 1) < RATE_LIMIT := by omega
        simp [h1, h2]
      · have hstep : checkRateLimit t ip now =
            (true, mapSet t ip { count := c + 1, resetAt := R }) := by
          simp [checkRateLimit, hget, hnot, hc]
        have := ih (mapSet t ip { count := c + 1, resetAt := R }) (c + 1)
          (mapGet_mapSet_same _ _ _) hrest
        simp only [runCalls, hstep, resultsFor, callsFor, List.filter_cons, decide_True,
          if_true, List.map_cons, List.length_cons, List.range_succ_eq_map] at this ⊢
        rw [this]
        simp only [List.map_cons, List.map_map, Nat.add_zero, List.cons.injEq]
        refine ⟨by simp; omega, ?_⟩
        apply List.map_congr_left
        intro i _
        simp [Nat.add_assoc, Nat.add_comm 1 i]
    · have hother : mapGet (checkRateLimit t ip now).2 S = some { count := c, resetAt := R } := by
        rw [checkRateLimit_other t ip S now hip]; exact hget
      have := ih (checkRateLimit t ip now).2 c hother hrest
      simpa [runCalls, resultsFor, callsFor, List.filter_cons, hip] using this

theorem mem_of_mapGet (t : RateTable) (ip : JSString) (d : RateWindow)
    (h : mapGet t ip = some d) : (ip, d) ∈ t := by
  induction t with
  | nil => simp [mapGet] at h
  | cons e rest ih =>
    obtain ⟨k, w⟩ := e
    by_cases hk : k = ip
    · subst hk
      simp [mapGet] at h
      simp [h]
    · simp [mapGet, hk] at h
      exact List.mem_cons_of_mem _ (ih h)

theorem mem_mapSet (t : RateTable) (ip : JSString) (v : RateWindow) (e : JSString × RateWindow)
    (h : e ∈ mapSet t ip v) : e ∈ t ∨ e.2 = v := by
  induction t with
  | nil =>
    simp [mapSet] at h
    right; rw [h]
  | cons x rest ih =>
    obtain ⟨k, w⟩ := x
    by_cases hk : k = ip
    · simp [mapSet, hk] at h
      rcases h with h | h
      · right; rw [h]
      · left; exact List.mem_cons_of_mem _ h
    · simp [mapSet, hk] at h
      rcases h with h | h
      · left; rw [h]; exact List.mem_cons_self _ _
      · rcases ih h with h' | h'
        · left; exact List.mem_cons_of_mem _ h'
        · right; exact h'

theorem countInRange_checkRateLimit (t : RateTable) (ip : JSString) (now : Nat)
    (h : countInRange t) : countInRange (checkRateLimit t ip now).2 := by
  have hfresh : ∀ r : Nat, countInRange (mapSet t ip { count := 1, resetAt := r }) := by
    intro r e he
    rcases mem_mapSet _ _ _ _ he with h1 | h1
    · exact h e h1
    · rw [h1]; simp [RATE_LIMIT]
  unfold checkRateLimit
  split
  · exact hfresh _
  · rename_i data hget
    split
    · exact hfresh _
    · split
      · exact h
      · rename_i hlt
        intro e he
        rcases mem_mapSet _ _ _ _ he with h1 | h1
        · exact h e h1
        · rw [h1]
          simp only
          omega

theorem countInRange_sweep (t : RateTable) (now : Nat) (h : countInRange t) :
    countInRange (sweep t now) := by
  intro e he
  exact h e (List.mem_of_mem_filter he)

theorem countInRange_applyEvents (es : List LimiterEvent) :
    ∀ t : RateTable, countInRange t → countInRange (applyEvents t es) := by
  induction es with
  | nil => intro t h; exact h
  | cons ev rest ih =>
    intro t h
    simp only [applyEvents, List.foldl_cons]
    apply ih
    cases ev with
    | check ip now => exact countInRange_checkRateLimit t ip now h
    | sweepAt now => exact countInRange_sweep t now h

/-! ## Rate limiter: claims -/

/-- C1: start from any table `t` (for instance the one left by earlier calls
for other keys).  When the first call for key `S` opens a window (the key is
absent, or its stored window has expired at time `T0`), and every later call for `S` in
the run is made at a time `now <= T0 + windowMs` (the `resetAt` of that
window), then, however the calls for other keys are interleaved, the `i`-th
call for `S` (counting from 0) returns `true` exactly when `i < 30`: the first
30 calls are admitted and every later one is refused.  Monotonicity of the
times is not needed. -/
theorem C1_first_thirty_admitted (t : RateTable) (S : JSString) (T0 : Nat)
    (calls : List (JSString × Nat))
    (hopen : mapGet t S = none ∨ ∃ d, mapGet t S = some d ∧ T0 > d.resetAt)
    (hwin : ∀ x ∈ calls, x.1 = S → x.2 ≤ T0 + windowMs) :
    resultsFor S (runCalls t ((S, T0) :: calls)).1 =
      (List.range (callsFor S ((S, T0) :: calls)).length).map (fun i => decide (i < 30)) := by
  have hstep : checkRateLimit t S T0 =
      (true, mapSet t S { count := 1, resetAt := T0 + windowMs }) := by
    rcases hopen with h | ⟨d, h, hd⟩
    · simp [checkRateLimit, h]
    · simp [checkRateLimit, h, hd]
  have hlive := resultsFor_live S (T0 + windowMs) calls
    (mapSet t S { count := 1, resetAt := T0 + windowMs }) 1 (mapGet_mapSet_same _ _ _) hwin
  simp only [runCalls, hstep, resultsFor, callsFor, List.filter_cons, decide_True,
    if_true, List.map_cons, List.length_cons, List.range_succ_eq_map] at hlive ⊢
  rw [hlive]
  simp only [List.map_cons, List.map_map, List.cons.injEq]
  refine ⟨by simp, ?_⟩
  apply List.map_congr_left
  intro i _
  simp [RATE_LIMIT, Nat.add_comm 1 i]

/-- C1 at a concrete run: 32 calls for one key at time 5 on the empty table,
with calls for another key before and between them. -/
theorem C1_first_thirty_admitted_witness :
    resultsFor [49] (runCalls [] (([49], 5) ::
        (([50], 7) :: List.replicate 31 ([49], 5) ++ [([50], 9)]))).1 =
      (List.range (callsFor [49] (([49], 5) ::
        (([50], 7) :: List.replicate 31 ([49], 5) ++ [([50], 9)]))).length).map
        (fun i => decide (i < 30)) :=
  C1_first_thirty_admitted [] [49] 5 (([50], 7) :: List.replicate 31 ([49], 5) ++ [([50], 9)])
    (Or.inl rfl) (by decide)

/-- C7: when the key is absent, or its stored window has expired
(`now > resetAt`), `checkRateLimit` returns `true` whatever count was stored and
the key's entry afterwards is `{count: 1, resetAt: now + 60000}`. -/
theorem C7_fresh_window (t : RateTable) (ip : JSString) (now : Nat)
    (h : mapGet t ip = none ∨ ∃ d, mapGet t ip = some d ∧ now > d.resetAt) :
    (checkRateLimit t ip now).1 = true ∧
      mapGet (checkRateLimit t ip now).2 ip = some { count := 1, resetAt := now + 60000 } := by
  have hstep : checkRateLimit t ip now =
      (true, mapSet t ip { count := 1, resetAt := now + windowMs }) := by
    rcases h with h | ⟨d, h, hd⟩
    · simp [checkRateLimit, h]
    · simp [checkRateLimit, h, hd]
  rw [hstep]
  exact ⟨rfl, mapGet_mapSet_same _ _ _⟩

/-- C7 at a concrete table: a window with count 30 that expired at 100 is
replaced at time 101. -/
theorem C7_fresh_window_witness :
    (checkRateLimit [([49], { count := 30, resetAt := 100 })] [49] 101).1 = true ∧
      mapGet (checkRateLimit [([49], { count := 30, resetAt := 100 })] [49] 101).2 [49] =
        some { count := 1, resetAt := 101 + 60000 } :=
  C7_fresh_window [([49], { count := 30, resetAt := 100 })] [49] 101
    (Or.inr ⟨{ count := 30, resetAt := 100 }, by decide, by decide⟩)

/-- C8: in every table reached from the empty table by any sequence of
`checkRateLimit` calls and sweeps, at any times, every stored entry has
`1 <= count <= 30`. -/
theorem C8_count_invariant (es : List LimiterEvent) (e : JSString × RateWindow)
    (he : e ∈ applyEvents [] es) : 1 ≤ e.2.count ∧ e.2.count ≤ 30 :=
  countInRange_applyEvents es [] (by intro e he; simp at he) e he

/-- C8 at a concrete run: two calls for one key, a sweep that removes nothing and
a call for another key. -/
theorem C8_count_invariant_witness :
    1 ≤ (([49], { count := 2, resetAt := 60005 }) : JSString × RateWindow).2.count ∧
      (([49], { count := 2, resetAt := 60005 }) : JSString × RateWindow).2.count ≤ 30 :=
  C8_count_invariant [.check [49] 5, .check [49] 6, .sweepAt 60005, .check [50] 7]
    ([49], { count := 2, resetAt := 60005 }) (by decide)

/-- C9: a call that returns `false` leaves the whole table unchanged, and the
call returns `false` exactly when the key has a stored window that is live
(`now <= resetAt`) and whose count has reached the limit. -/
theorem C9_refusal_frame (t : RateTable) (ip : JSString) (now : Nat) :
    ((checkRateLimit t ip now).1 = false → (checkRateLimit t ip now).2 = t) ∧
      ((checkRateLimit t ip now).1 = false ↔
        ∃ d, mapGet t ip = some d ∧ now ≤ d.resetAt ∧ d.count ≥ 30) := by
  unfold checkRateLimit
  cases hget : mapGet t ip with
  | none => simp
  | some d =>
    by_cases h1 : now > d.resetAt
    · simp [h1]
    · by_cases h2 : d.count ≥ RATE_LIMIT
      · have h3 : now ≤ d.resetAt := Nat.not_lt.mp h1
        have h4 : 30 ≤ d.count := h2
        simp [h1, h2, h3, h4]
      · have h4 : ¬ 30 ≤ d.count := h2
        simp [h1, h2, h4]

/-! ## Submission handling: lemmas -/

theorem missing_head (name : JSString) : (js "Missing field: " ++ name).head? = some 77 := rfl

theorem errorBody_ne_missing (msg name : JSString) (h : msg.head? ≠ some 77) :
    (some (errorBody msg) : Option JSValue) ≠ some (errorBody (js "Missing field: " ++ name)) := by
  intro heq
  simp only [errorBody, Option.some.injEq, JSValue.obj.injEq, List.cons.injEq, Prod.mk.injEq,
    JSValue.str.injEq, and_true, true_and] at heq
  exact h (heq ▸ missing_head name)

theorem catchBlock_ne_missing (e : JSError) (name : JSString) :
    (catchBlock e).body ≠ some (errorBody (js "Missing field: " ++ name)) := by
  unfold catchBlock
  split
  · exact errorBody_ne_missing _ _ (by decide)
  · simp [errorBody]

theorem successResponse_ne_missing (id : Option JSValue) (name : JSString) :
    (successResponse id).body ≠ some (errorBody (js "Missing field: " ++ name)) := by
  cases id <;> simp [successResponse, errorBody]

/-- Once the loop over the required fields has passed, no later response is a
"Missing field" response. -/
theorem handleEnd_ne_missing (fd : JSValue) (webhookUrl : JSString) (net : ForwardOutcome)
    (nowIso : JSString) (hreq : checkRequired fd required = .ok none) (h : Handled)
    (name : JSString) (hh : handleEnd webhookUrl (.value fd) net nowIso = some h) :
    h.response.body ≠ some (errorBody (js "Missing field: " ++ name)) := by
  simp only [handleEnd, tryBlock, validate, hreq, bind, Eval.bind] at hh
  cases hL : lengthInvalid fd with
  | unmodelled => simp [hL] at hh
  | throw e =>
    simp [hL] at hh
    rw [← hh]; exact catchBlock_ne_missing e name
  | ok b =>
    cases b with
    | true =>
      simp [hL, pure] at hh
      rw [← hh]; exact errorBody_ne_missing _ _ (by decide)
    | false =>
      simp only [hL, pure] at hh
      cases hlog : receivedLogLine fd with
      | unmodelled => simp [hlog] at hh
      | throw e =>
        simp [hlog] at hh
        rw [← hh]; exact catchBlock_ne_missing e name
      | ok line =>
        simp only [hlog] at hh
        by_cases hurl : webhookUrl.isEmpty = true
        · simp [hurl] at hh
          rw [← hh]; exact errorBody_ne_missing _ _ (by decide)
        · simp only [hurl] at hh
          cases hb : buildDiscordPayload fd nowIso with
          | unmodelled => simp [hb] at hh
          | throw e =>
            simp [hb] at hh
            rw [← hh]; exact catchBlock_ne_missing e name
          | ok payload =>
            simp only [hb] at hh
            cases hsend : sendToDiscord webhookUrl payload net with
            | unmodelled => simp [hsend] at hh
            | throw e =>
              simp [hsend] at hh
              rw [← hh]; exact catchBlock_ne_missing e name
            | ok ack =>
              simp only [hsend] at hh
              cases hid : getField fd (js "id") with
              | unmodelled => simp [hid] at hh
              | throw e =>
                simp [hid] at hh
                rw [← hh]; exact catchBlock_ne_missing e name
              | ok id =>
                simp [hid] at hh
                rw [← hh]; exact successResponse_ne_missing id name

/-! ## Message builder: lemmas -/

theorem toStrOpt_str (s : JSString) : toStrOpt (some (.str s)) = .ok s := rfl

theorem feedbackTextOf_str (s : JSString) :
    feedbackTextOf (some (.str s)) =
      .ok (some (.str (if s.length > 1000 then s.take 997 ++ js "..." else s))) := by
  by_cases h : s.length > 1000
  · simp [feedbackTextOf, lengthOf, greaterThan, toNumber, substring0, bind, Eval.bind, pure, h]
  · simp [feedbackTextOf, lengthOf, greaterThan, toNumber, bind, Eval.bind, pure, h]

theorem profileUrlOf_ok (username userId : Option JSValue)
    (h : ∃ t, toStrOpt userId = .ok t) : ∃ r, profileUrlOf username userId = .ok r := by
  obtain ⟨t, ht⟩ := h
  unfold profileUrlOf
  split
  · simp [ht]
  · exact ⟨none, rfl⟩

theorem usernameDisplayOf_ok (username : Option JSValue) (profileUrl : Option JSString)
    (h : ∃ t, toStrOpt username = .ok t) :
    ∃ r, usernameDisplayOf username profileUrl = .ok r := by
  obtain ⟨t, ht⟩ := h
  unfold usernameDisplayOf
  cases profileUrl with
  | none => exact ⟨username, rfl⟩
  | some link =>
    by_cases hn : notAnonymous username = true
    · simp [hn, ht]
    · simp [hn]

theorem gamePlaceUrlOf_ok (placeId : Option JSValue) (h : ∃ t, toStrOpt placeId = .ok t) :
    ∃ r, gamePlaceUrlOf placeId = .ok r := by
  obtain ⟨t, ht⟩ := h
  unfold gamePlaceUrlOf
  split
  · simp [ht]
  · exact ⟨none, rfl⟩

theorem placeTextOf_ok (placeId : Option JSValue) (h : ∃ t, toStrOpt placeId = .ok t) :
    ∃ r, placeTextOf placeId = .ok r := by
  obtain ⟨t, ht⟩ := h
  unfold placeTextOf
  split
  · exact ⟨t, ht⟩
  · exact ⟨_, rfl⟩

theorem samplePayload_built : buildDiscordPayload sampleBody sampleIso = .ok samplePayload := by
  rfl

/-! ## Submission handling: claims -/

/-- C5: for every body that parses to a record, whatever the types of its
field values: when some required field is absent or empty, the handler answers
400 "Missing field: <name>" with `<name>` the first such field in the order
feedback, username, category, and forwards nothing; when no required field is
absent or empty, no response of the handler is a "Missing field" response. -/
theorem C5_missing_field (props : List (JSString × JSValue)) (webhookUrl : JSString)
    (net : ForwardOutcome) (nowIso : JSString) :
    (∀ name, firstMissing props = some name →
      handleEnd webhookUrl (.value (.obj props)) net nowIso =
        some { response :=
                { status := 400, body := some (errorBody (js "Missing field: " ++ name)) }
               forwarded := none }) ∧
    (firstMissing props = none →
      ∀ h name, handleEnd webhookUrl (.value (.obj props)) net nowIso = some h →
        h.response.body ≠ some (errorBody (js "Missing field: " ++ name))) := by
  have htruthy : ∀ v, truthy v = !absentOrEmpty v := by
    intro v
    rcases v with _ | v
    · rfl
    · cases v with
      | str s => cases s <;> simp [truthy, absentOrEmpty]
      | _ => simp [truthy, absentOrEmpty]
  constructor
  · intro name hname
    have hreq : checkRequired (.obj props) required =
        .ok (some { status := 400, body := some (errorBody (js "Missing field: " ++ name)) }) := by
      simp only [firstMissing, List.find?_cons] at hname
      simp only [required, checkRequired, getField, htruthy, Bool.not_not]
      cases h1 : absentOrEmpty (ownProp props (js "feedback"))
      · cases h2 : absentOrEmpty (ownProp props (js "username"))
        · cases h3 : absentOrEmpty (ownProp props (js "category"))
          · simp [h1, h2, h3] at hname
          · simp [h1, h2, h3] at hname
            simp [hname]
        · simp [h1, h2] at hname
          simp [hname]
      · simp [h1] at hname
        simp [hname]
    simp [handleEnd, tryBlock, validate, hreq, bind, Eval.bind, pure]
  · intro hnone h name hh
    have hreq : checkRequired (.obj props) required = .ok none := by
      simp only [firstMissing, List.find?_cons] at hnone
      simp only [required, checkRequired, getField, htruthy, Bool.not_not]
      cases h1 : absentOrEmpty (ownProp props (js "feedback"))
      · cases h2 : absentOrEmpty (ownProp props (js "username"))
        · cases h3 : absentOrEmpty (ownProp props (js "category"))
          · simp
          · simp [h1, h2, h3] at hnone
        · simp [h1, h2] at hnone
      · simp [h1] at hnone
    exact handleEnd_ne_missing _ webhookUrl net nowIso hreq h name hh

/-- C6, at the failing input: a body consisting of the JSON text `null` parses,
the read `feedbackData["feedback"]` throws a `TypeError`, and the `catch` block
answers 500 with that error's message as `details` instead of 400
"Invalid JSON".  Nothing is forwarded. -/
theorem C6_null_body_answers_500 (webhookUrl : JSString) (net : ForwardOutcome)
    (nowIso : JSString) :
    handleEnd webhookUrl (.value .null) net nowIso =
      some { response :=
              { status := 500
                body := some (.obj [(js "error", .str (js "Internal server error")),
                  (js "details",
                    .str (js "Cannot read properties of null (reading \x27feedback\x27)"))]) }
             forwarded := none } := by
  rfl

/-- C3, at the failing input: the sample submission, a configured destination,
and a downstream answer 400 whose body mentions JSON.  The rejection message
contains "JSON", so the `catch` block answers 400 "Invalid JSON" although the
forward was attempted and failed. -/
theorem C3_downstream_rejection_answers_400 :
    responseStatus (handleEnd sampleUrl (.value sampleBody) sampleRejection sampleIso) = some 400 ∧
      responseText (handleEnd sampleUrl (.value sampleBody) sampleRejection sampleIso) =
        js "\x7b\"error\":\"Invalid JSON\"\x7d" ∧
      forwardAttempted (handleEnd sampleUrl (.value sampleBody) sampleRejection sampleIso) = true := by
  decide

/-- C2, corrected.  Counterexample to the claim as stated: for the sample
submission with a destination configured, a timeout and a downstream answer
404 "Unknown Webhook" give different response bodies, the second body contains
the downstream status and body, and the body sent after a transport error
contains the transport error text. -/
theorem C2_failure_bodies_differ :
    responseText (handleEnd sampleUrl (.value sampleBody) .timeout sampleIso) ≠
        responseText (handleEnd sampleUrl (.value sampleBody)
          (.response 404 (js "Unknown Webhook")) sampleIso) ∧
      responseText (handleEnd sampleUrl (.value sampleBody)
          (.response 404 (js "Unknown Webhook")) sampleIso) =
        js ("\x7b\"error\":\"Internal server error\"," ++
          "\"details\":\"Discord responded with 404: Unknown Webhook\"\x7d") ∧
      includes (responseText (handleEnd sampleUrl (.value sampleBody)
          (.error (js "connect ECONNREFUSED 10.0.0.5:443")) sampleIso))
        (js "connect ECONNREFUSED 10.0.0.5:443") = true := by
  decide

/-- C2, amended: for every submission that passes validation, with a
destination configured, and every forwarder failure whose error message does not
contain "JSON", the response is 500 and its body is the object
`{error: "Internal server error", details: <message>}`: the `error` text is the
same for all such failures, and `details` is the forwarder error message
verbatim, which is "Discord responded with <status>: <body>" for a downstream
status outside 2xx, the transport error text for a transport error, and
"Request timeout" for a timeout. -/
theorem C2_failure_reports_details (webhookUrl : JSString) (fd : JSValue)
    (net : ForwardOutcome) (nowIso line : JSString) (payload : DiscordPayload) (e : JSError)
    (hurl : webhookUrl ≠ []) (hv : validate fd = .ok none)
    (hl : receivedLogLine fd = .ok line)
    (hb : buildDiscordPayload fd nowIso = .ok payload)
    (hfail : sendToDiscord webhookUrl payload net = .throw e)
    (hj : includes e.message (js "JSON") = false) :
    handleEnd webhookUrl (.value fd) net nowIso =
        some { response :=
                { status := 500
                  body := some (.obj [(js "error", .str (js "Internal server error")),
                    (js "details", .str e.message)]) }
               forwarded := some payload } ∧
      e.message =
        (match net with
         | .response statusCode data =>
           js "Discord responded with " ++ js (toString statusCode) ++ js ": " ++ data
         | .error message => message
         | .timeout => js "Request timeout"
         | .threw message => message) := by
  constructor
  · have hne : webhookUrl.isEmpty = false := by
      cases webhookUrl with
      | nil => exact absurd rfl hurl
      | cons _ _ => rfl
    simp [handleEnd, tryBlock, hv, hl, hne, hb, hfail, catchBlock, hj]
  · cases net with
    | response statusCode data =>
      simp only [sendToDiscord] at hfail
      split at hfail
      · cases hfail
      · cases hfail; rfl
    | error message => simp only [sendToDiscord] at hfail; cases hfail; rfl
    | timeout => simp only [sendToDiscord] at hfail; cases hfail; rfl
    | threw message => simp only [sendToDiscord] at hfail; cases hfail; rfl

/-- C2, amended, at the sample submission with a downstream answer 404. -/
theorem C2_failure_reports_details_witness :
    handleEnd sampleUrl (.value sampleBody) (.response 404 (js "Unknown Webhook")) sampleIso =
      some { response :=
              { status := 500
                body := some (.obj [(js "error", .str (js "Internal server error")),
                  (js "details", .str (js "Discord responded with 404: Unknown Webhook"))]) }
             forwarded := some samplePayload } :=
  (C2_failure_reports_details sampleUrl sampleBody (.response 404 (js "Unknown Webhook"))
    sampleIso (js "[Bridge] Received feedback from Bob [Bug Report]: aaaaaaaaaa...")
    samplePayload ⟨js "Discord responded with 404: Unknown Webhook"⟩
    (by decide) rfl (by decide) samplePayload_built rfl (by decide)).1

/-! ## Message builder: claims -/

theorem mapGet_none_of_not_key (t : RateTable) (k : JSString) (h : k ∉ t.map Prod.fst) :
    mapGet t k = none := by
  induction t with
  | nil => rfl
  | cons e rest ih =>
    obtain ⟨k1, w⟩ := e
    simp only [List.map_cons, List.mem_cons, not_or] at h
    have hne : ¬ k1 = k := fun hk => h.1 hk.symm
    simp [mapGet, hne, ih h.2]

theorem keys_sweep_subset (t : RateTable) (ts : Nat) (k : JSString)
    (h : k ∈ (sweep t ts).map Prod.fst) : k ∈ t.map Prod.fst := by
  simp only [List.mem_map] at h ⊢
  obtain ⟨e, he, hk⟩ := h
  exact ⟨e, List.mem_of_mem_filter he, hk⟩

theorem mapGet_sweep (t : RateTable) (ts : Nat) (k : JSString) (hkeys : uniqueKeys t) :
    mapGet (sweep t ts) k =
      match mapGet t k with
      | some d => if ts > d.resetAt then none else some d
      | none => none := by
  induction t with
  | nil => rfl
  | cons e rest ih =>
    obtain ⟨k1, w⟩ := e
    have hnd : k1 ∉ rest.map Prod.fst ∧ uniqueKeys rest := by
      simpa [uniqueKeys] using hkeys
    by_cases hk : k1 = k
    · subst hk
      by_cases hexp : ts > w.resetAt
      · have hgone : mapGet (sweep rest ts) k1 = none :=
          mapGet_none_of_not_key _ _ (fun hmem => hnd.1 (keys_sweep_subset rest ts k1 hmem))
        have hs : sweep ((k1, w) :: rest) ts = sweep rest ts := by
          simp [sweep, List.filter_cons, hexp]
        rw [hs, hgone]
        simp [mapGet, hexp]
      · have hs : sweep ((k1, w) :: rest) ts = (k1, w) :: sweep rest ts := by
          simp [sweep, List.filter_cons, hexp]
        rw [hs]
        simp [mapGet, hexp]
    · by_cases hexp : ts > w.resetAt
      · have hs : sweep ((k1, w) :: rest) ts = sweep rest ts := by
          simp [sweep, List.filter_cons, hexp]
        rw [hs, ih hnd.2]
        simp [mapGet, hk]
      · have hs : sweep ((k1, w) :: rest) ts = (k1, w) :: sweep rest ts := by
          simp [sweep, List.filter_cons, hexp]
        rw [hs]
        simp only [mapGet, hk, if_false]
        exact ih hnd.2

theorem keys_mapSet (t : RateTable) (ip : JSString) (v : RateWindow) (k : JSString)
    (h : k ∈ (mapSet t ip v).map Prod.fst) : k ∈ t.map Prod.fst ∨ k = ip := by
  induction t with
  | nil =>
    simp [mapSet] at h
    exact Or.inr h
  | cons e rest ih =>
    obtain ⟨k1, w⟩ := e
    by_cases hk : k1 = ip
    · simp only [mapSet, hk, if_true, List.map_cons, List.mem_cons] at h ⊢
      rcases h with h | h
      · exact Or.inr h
      · exact Or.inl (Or.inr h)
    · simp only [mapSet, hk, if_false, List.map_cons, List.mem_cons] at h ⊢
      rcases h with h | h
      · exact Or.inl (Or.inl h)
      · rcases ih h with h1 | h1
        · exact Or.inl (Or.inr h1)
        · exact Or.inr h1

theorem uniqueKeys_mapSet (t : RateTable) (ip : JSString) (v : RateWindow)
    (h : uniqueKeys t) : uniqueKeys (mapSet t ip v) := by
  induction t with
  | nil => simp [mapSet, uniqueKeys]
  | cons e rest ih =>
    obtain ⟨k1, w⟩ := e
    have hnd : k1 ∉ rest.map Prod.fst ∧ uniqueKeys rest := by
      simpa [uniqueKeys] using h
    by_cases hk : k1 = ip
    · simpa [mapSet, hk, uniqueKeys] using h
    · have hrest := ih hnd.2
      have hnot : k1 ∉ (mapSet rest ip v).map Prod.fst := by
        intro hmem
        rcases keys_mapSet rest ip v k1 hmem with h1 | h1
        · exact hnd.1 h1
        · exact hk h1
      simp only [mapSet, hk, if_false, uniqueKeys, List.map_cons, List.nodup_cons]
      exact ⟨hnot, hrest⟩

theorem uniqueKeys_checkRateLimit (t : RateTable) (ip : JSString) (now : Nat)
    (h : uniqueKeys t) : uniqueKeys (checkRateLimit t ip now).2 := by
  unfold checkRateLimit
  split
  · exact uniqueKeys_mapSet _ _ _ h
  · split
    · exact uniqueKeys_mapSet _ _ _ h
    · split
      · exact h
      · exact uniqueKeys_mapSet _ _ _ h

theorem uniqueKeys_sweep (t : RateTable) (now : Nat) (h : uniqueKeys t) :
    uniqueKeys (sweep t now) :=
  List.Nodup.sublist (List.Sublist.map _ (List.filter_sublist t)) h

/-- Every table reached from the empty one has pairwise distinct keys. -/
theorem uniqueKeys_applyEvents (es : List LimiterEvent) :
    ∀ t : RateTable, uniqueKeys t → uniqueKeys (applyEvents t es) := by
  induction es with
  | nil => intro t h; exact h
  | cons ev rest ih =>
    intro t h
    simp only [applyEvents, List.foldl_cons]
    apply ih
    cases ev with
    | check ip now => exact uniqueKeys_checkRateLimit t ip now h
    | sweepAt now => exact uniqueKeys_sweep t now h

/-! ## Sweep: claims -/

/-- C14: for every table (a `Map`, so with pairwise distinct keys, as every
table reached from the empty one has), every key, every sweep time `ts` and
every later time `now >= ts`: `checkRateLimit(key)` at `now` returns the same
boolean and leaves the same entry for `key` on the swept table as on the
unswept one; and the sweep keeps exactly the entries that do not satisfy
`ts > resetAt`, unchanged and in their order. -/
theorem C14_sweep_transparent (t : RateTable) (key : JSString) (ts now : Nat)
    (hkeys : uniqueKeys t) (hlater : ts ≤ now) :
    (checkRateLimit (sweep t ts) key now).1 = (checkRateLimit t key now).1 ∧
      mapGet (checkRateLimit (sweep t ts) key now).2 key =
        mapGet (checkRateLimit t key now).2 key ∧
      (∀ e, e ∈ sweep t ts ↔ e ∈ t ∧ ¬ ts > e.2.resetAt) ∧
      List.Sublist (sweep t ts) t := by
  have hmem : ∀ e, e ∈ sweep t ts ↔ e ∈ t ∧ ¬ ts > e.2.resetAt := by
    intro e
    simp [sweep, List.mem_filter]
  refine ⟨?_, ?_, hmem, List.filter_sublist t⟩
  · have hsw := mapGet_sweep t ts key hkeys
    cases hget : mapGet t key with
    | none =>
      rw [hget] at hsw
      simp [checkRateLimit, hget, hsw]
    | some d =>
      rw [hget] at hsw
      by_cases hexp : ts > d.resetAt
      · have hnow : now > d.resetAt := by omega
        simp only [hexp, if_true] at hsw
        simp [checkRateLimit, hget, hsw, hnow]
      · simp only [hexp, if_false] at hsw
        by_cases h1 : now > d.resetAt
        · simp [checkRateLimit, hget, hsw, h1]
        · by_cases h2 : d.count ≥ RATE_LIMIT
          · simp [checkRateLimit, hget, hsw, h1, h2]
          · simp [checkRateLimit, hget, hsw, h1, h2]
  · have hsw := mapGet_sweep t ts key hkeys
    cases hget : mapGet t key with
    | none =>
      rw [hget] at hsw
      simp [checkRateLimit, hget, hsw, mapGet_mapSet_same]
    | some d =>
      rw [hget] at hsw
      by_cases hexp : ts > d.resetAt
      · have hnow : now > d.resetAt := by omega
        simp only [hexp, if_true] at hsw
        simp [checkRateLimit, hget, hsw, hnow, mapGet_mapSet_same]
      · simp only [hexp, if_false] at hsw
        by_cases h1 : now > d.resetAt
        · simp [checkRateLimit, hget, hsw, h1, mapGet_mapSet_same]
        · by_cases h2 : d.count ≥ RATE_LIMIT
          · simp [checkRateLimit, hget, hsw, h1, h2]
          · simp [checkRateLimit, hget, hsw, h1, h2, mapGet_mapSet_same]

/-- C14 on a table with one expired and one live window, swept at time 200 and
accessed at time 250. -/
theorem C14_sweep_transparent_witness :
    (checkRateLimit (sweep [([49], { count := 30, resetAt := 100 }),
        ([50], { count := 3, resetAt := 300 })] 200) [49] 250).1 =
      (checkRateLimit [([49], { count := 30, resetAt := 100 }),
        ([50], { count := 3, resetAt := 300 })] [49] 250).1 ∧
    sweep [([49], { count := 30, resetAt := 100 }), ([50], { count := 3, resetAt := 300 })] 200 =
      [([50], { count := 3, resetAt := 300 })] :=
  ⟨(C14_sweep_transparent [([49], { count := 30, resetAt := 100 }),
      ([50], { count := 3, resetAt := 300 })] [49] 200 250 (by simp [uniqueKeys]) (by decide)).1,
    by decide⟩

/-! ## Message builder: presentation and identity -/

/-- The payload built for a record with a text feedback whose displayed fields
convert to strings. -/
theorem buildDiscordPayload_text (props : List (JSString × JSValue))
    (s nowIso tid tcat ptext : JSString) (purl gurl : Option JSString) (disp : Option JSValue)
    (hf : ownProp props (js "feedback") = some (.str s))
    (hid : toStrOpt (ownProp props (js "id")) = .ok tid)
    (hcat : toStrOpt (ownProp props (js "category")) = .ok tcat)
    (hpurl : profileUrlOf (ownProp props (js "username")) (ownProp props (js "userId")) =
      .ok purl)
    (hdisp : usernameDisplayOf (ownProp props (js "username")) purl = .ok disp)
    (hgurl : gamePlaceUrlOf (ownProp props (js "placeId")) = .ok gurl)
    (hptext : placeTextOf (ownProp props (js "placeId")) = .ok ptext) :
    ∃ payload e, buildDiscordPayload (.obj props) nowIso = .ok payload ∧
      payload.embeds = [e] ∧
      e.title = iconText (selectFrom CATEGORY_ICONS tcat (js "📝")) ++ js " New " ++ tcat ++
        js " Feedback" ∧
      e.color = selectFrom CATEGORY_COLORS tcat 0x888888 ∧
      e.fields = embedFields disp (ownProp props (js "category")) tid gurl := by
  simp [buildDiscordPayload, destructure, bind, Eval.bind, pure, hf, hid, hcat, hpurl, hdisp,
    hgurl, hptext, feedbackTextOf_str, toStrOpt_str]

theorem selectFrom_unrecognized {α : Type} (table : List (JSString × α)) (key : JSString)
    (fallback : α) (hconf : key ∉ table.map Prod.fst) (hproto : key ∉ objectPrototypeKeys) :
    selectFrom table key fallback = .value fallback := by
  have hlook : table.lookup key = none := by
    induction table with
    | nil => rfl
    | cons e rest ih =>
      obtain ⟨k, v⟩ := e
      simp only [List.map_cons, List.mem_cons, not_or] at hconf
      have hne : (key == k) = false := by simpa using hconf.1
      simp [List.lookup, hne, ih hconf.2]
  simp [selectFrom, hlook, hproto]

/-- C11, corrected.  Counterexample to the claim as stated: for the category
"Unknown" the builder selects the colour 0x888888, while for the category
"Other" it selects 0xffcc44. -/
theorem C11_unknown_colour_differs :
    (builtEmbed (sampleWithCategory (js "Unknown")) sampleIso).map (fun e => e.color) ≠
        (builtEmbed (sampleWithCategory (js "Other")) sampleIso).map (fun e => e.color) ∧
      (builtEmbed (sampleWithCategory (js "Unknown")) sampleIso).map (fun e => e.color) =
        some (.value 0x888888) ∧
      (builtEmbed (sampleWithCategory (js "Other")) sampleIso).map (fun e => e.color) =
        some (.value 0xffcc44) := by
  decide

/-- C11, amended: for every category text that is neither a configured
category nor the name of a property that object literals inherit from
`Object.prototype`, `buildDiscordPayload` selects the default colour 0x888888,
which is not the colour 0xffcc44 of "Other", and the default icon, which is
the icon of "Other"; the title of the embed starts with that icon. -/
theorem C11_unrecognized_category_defaults (props : List (JSString × JSValue))
    (c s nowIso : JSString)
    (hc : ownProp props (js "category") = some (.str c))
    (hf : ownProp props (js "feedback") = some (.str s))
    (hp : ∀ name ∈ [js "id", js "username", js "userId", js "placeId"],
      ∃ t, toStrOpt (ownProp props name) = .ok t)
    (hconf : c ∉ [js "Bug Report", js "Suggestion", js "Gameplay", js "Other"])
    (hproto : c ∉ objectPrototypeKeys) :
    ∃ payload e, buildDiscordPayload (.obj props) nowIso = .ok payload ∧
      payload.embeds = [e] ∧
      e.color = .value 0x888888 ∧
      selectFrom CATEGORY_COLORS (js "Other") 0x888888 = .value 0xffcc44 ∧
      e.title = js "📝" ++ js " New " ++ c ++ js " Feedback" ∧
      selectFrom CATEGORY_ICONS c (js "📝") = selectFrom CATEGORY_ICONS (js "Other") (js "📝") := by
  obtain ⟨tid, hid⟩ := hp (js "id") (by simp)
  obtain ⟨purl, hpurl⟩ := profileUrlOf_ok (ownProp props (js "username"))
    (ownProp props (js "userId")) (hp (js "userId") (by simp))
  obtain ⟨disp, hdisp⟩ := usernameDisplayOf_ok (ownProp props (js "username")) purl
    (hp (js "username") (by simp))
  obtain ⟨gurl, hgurl⟩ := gamePlaceUrlOf_ok (ownProp props (js "placeId"))
    (hp (js "placeId") (by simp))
  obtain ⟨ptext, hptext⟩ := placeTextOf_ok (ownProp props (js "placeId"))
    (hp (js "placeId") (by simp))
  have hcat : toStrOpt (ownProp props (js "category")) = .ok c := by rw [hc]; rfl
  obtain ⟨payload, e, h1, h2, h3, h4, _⟩ :=
    buildDiscordPayload_text props s nowIso tid c ptext purl gurl disp hf hid hcat hpurl hdisp
      hgurl hptext
  have hcolor : selectFrom CATEGORY_COLORS c 0x888888 = .value 0x888888 :=
    selectFrom_unrecognized _ _ _ (by simpa [CATEGORY_COLORS] using hconf) hproto
  have hicon : selectFrom CATEGORY_ICONS c (js "📝") = .value (js "📝") :=
    selectFrom_unrecognized _ _ _ (by simpa [CATEGORY_ICONS] using hconf) hproto
  refine ⟨payload, e, h1, h2, ?_, by decide, ?_, ?_⟩
  · rw [h4, hcolor]
  · rw [h3, hicon]; rfl
  · rw [hicon]; decide

/-- C11, amended, at the sample submission with the category "Unknown". -/
theorem C11_unrecognized_category_defaults_witness :
    ∃ payload e, buildDiscordPayload (sampleWithCategory (js "Unknown")) sampleIso = .ok payload ∧
      payload.embeds = [e] ∧
      e.color = .value 0x888888 ∧
      selectFrom CATEGORY_COLORS (js "Other") 0x888888 = .value 0xffcc44 ∧
      e.title = js "📝" ++ js " New " ++ js "Unknown" ++ js " Feedback" ∧
      selectFrom CATEGORY_ICONS (js "Unknown") (js "📝") =
        selectFrom CATEGORY_ICONS (js "Other") (js "📝") :=
  C11_unrecognized_category_defaults _ (js "Unknown") (js "aaaaaaaaaa") sampleIso rfl rfl (by
    intro name hname
    simp only [List.mem_cons, List.mem_singleton, List.not_mem_nil, or_false] at hname
    rcases hname with h | h | h | h <;> subst h <;> exact ⟨_, rfl⟩) (by decide) (by decide)

/-- C12, at the failing input: for the category "toString", which is outside
the configured set, the read `CONFIG.CATEGORY_COLORS[category]` finds the
function `Object.prototype.toString`, which is truthy, so the builder selects
that function as colour and as icon, while for the category "Unknown", also
outside the configured set, it selects the defaults. -/
theorem C12_inherited_category_selection :
    (builtEmbed (sampleWithCategory (js "toString")) sampleIso).map (fun e => e.color) =
        some (.inherited (js "toString")) ∧
      (builtEmbed (sampleWithCategory (js "Unknown")) sampleIso).map (fun e => e.color) =
        some (.value 0x888888) ∧
      (builtEmbed (sampleWithCategory (js "toString")) sampleIso).map (fun e => e.title) =
        some (js "function toString() \x7b [native code] \x7d New toString Feedback") ∧
      (builtEmbed (sampleWithCategory (js "Unknown")) sampleIso).map (fun e => e.title) =
        some (js "📝 New Unknown Feedback") := by
  decide

/-- Every configured category selects its configured colour and icon. -/
theorem configured_category_selection :
    (∀ p ∈ CATEGORY_COLORS, selectFrom CATEGORY_COLORS p.1 0x888888 = .value p.2) ∧
      (∀ p ∈ CATEGORY_ICONS, selectFrom CATEGORY_ICONS p.1 (js "📝") = .value p.2) := by
  decide

theorem Eval.bind_ok {α β : Type} {x : Eval α} {f : α → Eval β} {b : β}
    (h : Eval.bind x f = .ok b) : ∃ a, x = .ok a ∧ f a = .ok b := by
  cases x with
  | ok a => exact ⟨a, rfl, h⟩
  | throw e => simp [Eval.bind] at h
  | unmodelled => simp [Eval.bind] at h

/-- When the builder returns a payload, it has converted the id to a string. -/
theorem idText_of_built (props : List (JSString × JSValue)) (nowIso : JSString)
    (payload : DiscordPayload) (hb : buildDiscordPayload (.obj props) nowIso = .ok payload) :
    ∃ t, toStrOpt (ownProp props (js "id")) = .ok t := by
  simp only [buildDiscordPayload, bind, destructure] at hb
  obtain ⟨id, h1, hb⟩ := Eval.bind_ok hb
  obtain ⟨username, _, hb⟩ := Eval.bind_ok hb
  obtain ⟨userId, _, hb⟩ := Eval.bind_ok hb
  obtain ⟨category, _, hb⟩ := Eval.bind_ok hb
  obtain ⟨feedback, _, hb⟩ := Eval.bind_ok hb
  obtain ⟨placeId, _, hb⟩ := Eval.bind_ok hb
  obtain ⟨categoryKey, _, hb⟩ := Eval.bind_ok hb
  obtain ⟨feedbackText, _, hb⟩ := Eval.bind_ok hb
  obtain ⟨profileUrl, _, hb⟩ := Eval.bind_ok hb
  obtain ⟨usernameDisplay, _, hb⟩ := Eval.bind_ok hb
  obtain ⟨gamePlaceUrl, _, hb⟩ := Eval.bind_ok hb
  obtain ⟨categoryText, _, hb⟩ := Eval.bind_ok hb
  obtain ⟨shown, _, hb⟩ := Eval.bind_ok hb
  obtain ⟨idText, h2, hb⟩ := Eval.bind_ok hb
  cases h1
  exact ⟨idText, h2⟩

/-- When the builder returns a payload, the id it printed prints again in the
log line written after the 200 response. -/
theorem sentLogLine_of_built (fd : JSValue) (nowIso : JSString) (payload : DiscordPayload)
    (hb : buildDiscordPayload fd nowIso = .ok payload) : ∃ line, sentLogLine fd = .ok line := by
  cases fd with
  | null => simp [buildDiscordPayload, destructure, bind, Eval.bind] at hb
  | bool b => exact ⟨_, rfl⟩
  | num n => exact ⟨_, rfl⟩
  | str t => exact ⟨_, rfl⟩
  | arr items => exact ⟨_, rfl⟩
  | obj props =>
    obtain ⟨t, hid⟩ := idText_of_built props nowIso payload hb
    refine ⟨js "[Bridge] ✓ Sent to Discord - ID: " ++ t, ?_⟩
    simp [sentLogLine, getField, bind, Eval.bind, hid, pure]

/-- The statement-by-statement trace of the `end` callback writes exactly the
response of `handleEnd`, once. -/
theorem endCallback_eq_handleEnd (webhookUrl : JSString) (parsed : ParseOutcome)
    (net : ForwardOutcome) (nowIso : JSString) :
    (endCallback webhookUrl parsed net nowIso).map (fun tr => (tr.writes, tr.forwarded)) =
      (handleEnd webhookUrl parsed net nowIso).map (fun h => ([h.response], h.forwarded)) := by
  cases parsed with
  | syntaxError message => rfl
  | value fd =>
    simp only [endCallback, handleEnd, tryBlock]
    cases hv : validate fd with
    | unmodelled => rfl
    | throw e => rfl
    | ok rej =>
      cases rej with
      | some r => rfl
      | none =>
        simp only []
        cases hl : receivedLogLine fd with
        | unmodelled => rfl
        | throw e => rfl
        | ok line =>
          simp only []
          by_cases hurl : webhookUrl.isEmpty = true
          · simp [hurl]
          · simp only [hurl]
            cases hb : buildDiscordPayload fd nowIso with
            | unmodelled => rfl
            | throw e => rfl
            | ok payload =>
              simp only []
              cases hs : sendToDiscord webhookUrl payload net with
              | unmodelled => rfl
              | throw e => rfl
              | ok ack =>
                simp only []
                obtain ⟨sent, hsent⟩ := sentLogLine_of_built fd nowIso payload hb
                cases hid : getField fd (js "id") with
                | unmodelled => rfl
                | throw e => rfl
                | ok id => simp [hsent]

theorem checkRequired_some (fd : JSValue) (fields : List JSString) (r : Response)
    (h : checkRequired fd fields = .ok (some r)) :
    ∃ f ∈ fields, r = { status := 400, body := some (errorBody (js "Missing field: " ++ f)) } := by
  induction fields with
  | nil => simp [checkRequired] at h
  | cons f rest ih =>
    simp only [checkRequired] at h
    cases hg : getField fd f with
    | unmodelled => simp [hg] at h
    | throw e => simp [hg] at h
    | ok v =>
      simp only [hg] at h
      by_cases ht : truthy v = true
      · simp only [ht, Bool.not_true, Bool.false_eq_true, if_false] at h
        obtain ⟨g, hgmem, hr⟩ := ih h
        exact ⟨g, List.mem_cons_of_mem _ hgmem, hr⟩
      · simp only [ht, Bool.not_false, if_true, Eval.ok.injEq, Option.some.injEq] at h
        exact ⟨f, List.mem_cons_self _ _, h.symm⟩

/-- A rejection by the validator is a 400 response naming a required field or
the feedback length. -/
theorem validate_rejection (fd : JSValue) (r : Response) (h : validate fd = .ok (some r)) :
    r.status = 400 ∧
      (r.body = some (errorBody (js "Invalid feedback length")) ∨
        ∃ f ∈ required, r.body = some (errorBody (js "Missing field: " ++ f))) := by
  simp only [validate, bind] at h
  obtain ⟨req, hreq, h⟩ := Eval.bind_ok h
  cases req with
  | some r0 =>
    simp only [pure, Eval.ok.injEq, Option.some.injEq] at h
    subst h
    obtain ⟨f, hf, hr⟩ := checkRequired_some fd required r0 hreq
    subst hr
    exact ⟨rfl, Or.inr ⟨f, hf, rfl⟩⟩
  | none =>
    simp only [] at h
    obtain ⟨bad, _, h⟩ := Eval.bind_ok h
    cases bad with
    | true =>
      simp only [if_true, pure, Eval.ok.injEq, Option.some.injEq] at h
      subst h
      exact ⟨rfl, Or.inl rfl⟩
    | false => simp [pure] at h

theorem catchBlock_status (e : JSError) :
    (catchBlock e).status = 400 ∨ (catchBlock e).status = 500 := by
  unfold catchBlock
  split
  · exact Or.inl rfl
  · exact Or.inr rfl

/-- The `end` callback answers 200, 400, 500 or 503. -/
theorem handleEnd_status (webhookUrl : JSString) (parsed : ParseOutcome) (net : ForwardOutcome)
    (nowIso : JSString) (h : Handled)
    (hh : handleEnd webhookUrl parsed net nowIso = some h) :
    h.response.status = 200 ∨ h.response.status = 400 ∨ h.response.status = 500 ∨
      h.response.status = 503 := by
  have hcatch : ∀ e, (catchBlock e).status = 200 ∨ (catchBlock e).status = 400 ∨
      (catchBlock e).status = 500 ∨ (catchBlock e).status = 503 := by
    intro e
    rcases catchBlock_status e with h1 | h1
    · exact Or.inr (Or.inl h1)
    · exact Or.inr (Or.inr (Or.inl h1))
  cases parsed with
  | syntaxError message =>
    simp only [handleEnd, tryBlock, Option.some.injEq] at hh
    rw [← hh]; exact hcatch _
  | value fd =>
    simp only [handleEnd, tryBlock] at hh
    cases hv : validate fd with
    | unmodelled => simp [hv] at hh
    | throw e =>
      simp [hv] at hh
      rw [← hh]; exact hcatch e
    | ok rej =>
      cases rej with
      | some r =>
        simp [hv] at hh
        rw [← hh]
        exact Or.inr (Or.inl (validate_rejection fd r hv).1)
      | none =>
        simp only [hv] at hh
        cases hlog : receivedLogLine fd with
        | unmodelled => simp [hlog] at hh
        | throw e =>
          simp [hlog] at hh
          rw [← hh]; exact hcatch e
        | ok line =>
          simp only [hlog] at hh
          by_cases hurl : webhookUrl.isEmpty = true
          · simp [hurl] at hh
            rw [← hh]; exact Or.inr (Or.inr (Or.inr rfl))
          · simp only [hurl] at hh
            cases hb : buildDiscordPayload fd nowIso with
            | unmodelled => simp [hb] at hh
            | throw e =>
              simp [hb] at hh
              rw [← hh]; exact hcatch e
            | ok payload =>
              simp only [hb] at hh
              cases hsend : sendToDiscord webhookUrl payload net with
              | unmodelled => simp [hsend] at hh
              | throw e =>
                simp [hsend] at hh
                rw [← hh]; exact hcatch e
              | ok ack =>
                simp only [hsend] at hh
                cases hid : getField fd (js "id") with
                | unmodelled => simp [hid] at hh
                | throw e =>
                  simp [hid] at hh
                  rw [← hh]; exact hcatch e
                | ok id =>
                  simp [hid] at hh
                  rw [← hh]; exact Or.inl rfl

/-! ## Submission handling: order of the checks, ill-typed fields -/

/-- C20, at the failing input: a record whose feedback is the number 12345.
The number is truthy and has no `length`, so both comparisons of line 286 are
false and validation passes although the feedback is not a string; the call
`feedbackData.feedback.substring` of line 293 then throws a `TypeError`, and
the `catch` block answers 500 although nothing was forwarded. -/
theorem C20_numeric_feedback_answers_500 :
    validate numericFeedbackBody = .ok none ∧
      responseStatus (handleEnd sampleUrl (.value numericFeedbackBody) .timeout sampleIso) =
        some 500 ∧
      responseText (handleEnd sampleUrl (.value numericFeedbackBody) .timeout sampleIso) =
        js ("\x7b\"error\":\"Internal server error\"," ++
          "\"details\":\"feedbackData.feedback.substring is not a function\"\x7d") ∧
      forwardAttempted (handleEnd sampleUrl (.value numericFeedbackBody) .timeout sampleIso) =
        false := by
  refine ⟨rfl, ?_, ?_, ?_⟩ <;> decide

/-! ## Request router: lemmas -/

theorem run_closed (webhookUrl : JSString) (x : Exchange) (events : List RequestEvent)
    (h : x.phase = .closed) : run webhookUrl x events = x := by
  induction events with
  | nil => rfl
  | cons ev rest ih =>
    have hs : step webhookUrl x ev = x := by simp [step, h]
    simp only [run, List.foldl_cons, hs]
    exact ih

theorem run_cons (webhookUrl : JSString) (x : Exchange) (ev : RequestEvent)
    (events : List RequestEvent) :
    run webhookUrl x (ev :: events) = run webhookUrl (step webhookUrl x ev) events := rfl

theorem endCallback_some (webhookUrl : JSString) (parsed : ParseOutcome) (net : ForwardOutcome)
    (nowIso : JSString) (tr : EndTrace) (h : endCallback webhookUrl parsed net nowIso = some tr) :
    ∃ hd, handleEnd webhookUrl parsed net nowIso = some hd ∧ tr.writes = [hd.response] ∧
      tr.forwarded = hd.forwarded := by
  have heq := endCallback_eq_handleEnd webhookUrl parsed net nowIso
  rw [h] at heq
  cases hh : handleEnd webhookUrl parsed net nowIso with
  | none => simp [hh] at heq
  | some hd =>
    simp only [hh, Option.map_some', Option.some.injEq, Prod.mk.injEq] at heq
    exact ⟨hd, rfl, heq.1, heq.2⟩

/-- C16: a request that is not `POST /webhook` (so every `OPTIONS` request,
`GET /`, and every other method or path) leaves the rate limiter map as it
was and is answered by the handler itself: no listener is attached, so
whatever events follow nothing more is written and nothing is forwarded.  An
`OPTIONS` request is answered 204, and `GET /` is answered 200 with
`discord_configured` equal to whether the destination URL is non-empty. -/
theorem C16_unrouted_requests_frame (webhookUrl : JSString) (t : RateTable) (req : Request)
    (now : Nat) (nowIso : JSString)
    (hnot : ¬ (req.method = js "POST" ∧ req.pathname = some (js "/webhook"))) :
    (dispatch webhookUrl t req now nowIso).2 = t ∧
      (∃ r, (dispatch webhookUrl t req now nowIso).1 = answered r) ∧
      (∀ events, run webhookUrl (dispatch webhookUrl t req now nowIso).1 events =
          (dispatch webhookUrl t req now nowIso).1 ∧
        (run webhookUrl (dispatch webhookUrl t req now nowIso).1 events).forwarded = none) ∧
      (req.method = js "OPTIONS" →
        (dispatch webhookUrl t req now nowIso).1 = answered { status := 204, body := none }) ∧
      (req.method = js "GET" → req.pathname = some (js "/") →
        (dispatch webhookUrl t req now nowIso).1 =
          answered { status := 200, body := some (healthBody webhookUrl nowIso) } ∧
        healthBody webhookUrl nowIso =
          .obj [(js "status", .str (js "online")),
            (js "service", .str (js "Roblox Feedback Bridge")),
            (js "version", .str (js "2.0")),
            (js "timestamp", .str nowIso),
            (js "discord_configured", .bool (decide (webhookUrl ≠ [])))]) := by
  have hans : ∃ r, (dispatch webhookUrl t req now nowIso).1 = answered r ∧
      (dispatch webhookUrl t req now nowIso).2 = t := by
    unfold dispatch
    split
    · exact ⟨_, rfl, rfl⟩
    · split
      · exact ⟨_, rfl, rfl⟩
      · exact ⟨_, rfl, rfl⟩
  obtain ⟨r, hr, ht⟩ := hans
  refine ⟨ht, ⟨r, hr⟩, ?_, ?_, ?_⟩
  · intro events
    have hrun := run_closed webhookUrl (dispatch webhookUrl t req now nowIso).1 events
      (by rw [hr]; rfl)
    refine ⟨hrun, ?_⟩
    rw [hrun, hr]; rfl
  · intro hm
    simp [dispatch, hm]
  · intro hm hp
    have h1 : ¬ js "GET" = js "OPTIONS" := by decide
    refine ⟨by simp [dispatch, hm, hp, h1], ?_⟩
    cases webhookUrl <;> simp [healthBody]

/-- C16 at the health check with no destination configured. -/
theorem C16_unrouted_requests_frame_witness :
    (dispatch [] [([49], { count := 3, resetAt := 100 })]
        { method := js "GET", pathname := some (js "/"), forwardedFor := none,
          remoteAddress := some [49] } 50 sampleIso).2 =
      [([49], { count := 3, resetAt := 100 })] ∧
    (dispatch [] [([49], { count := 3, resetAt := 100 })]
        { method := js "GET", pathname := some (js "/"), forwardedFor := none,
          remoteAddress := some [49] } 50 sampleIso).1 =
      answered { status := 200, body := some (healthBody [] sampleIso) } :=
  ⟨(C16_unrouted_requests_frame [] [([49], { count := 3, resetAt := 100 })]
      { method := js "GET", pathname := some (js "/"), forwardedFor := none,
        remoteAddress := some [49] } 50 sampleIso (by decide)).1,
    ((C16_unrouted_requests_frame [] [([49], { count := 3, resetAt := 100 })]
      { method := js "GET", pathname := some (js "/"), forwardedFor := none,
        remoteAddress := some [49] } 50 sampleIso (by decide)).2.2.2.2 rfl rfl).1⟩

theorem utf16Units_length (cp : Nat) : (utf16Units cp).length ≤ 2 := by
  unfold utf16Units
  split <;> simp

theorem utf8Start_length (b : Nat) :
    (utf8Start b).1.length + (if (utf8Start b).2.isSome then 1 else 0) ≤ 1 := by
  unfold utf8Start
  split
  · simp
  · split
    · simp
    · split
      · simp
      · split <;> simp

/-- Decoding never gives more code units than there are bytes, counting one
for a pending sequence. -/
theorem utf8DecodeFrom_length (bytes : List Nat) :
    ∀ st : Option Utf8Pending,
      (utf8DecodeFrom st bytes).length ≤ bytes.length + (if st.isSome then 1 else 0) := by
  induction bytes with
  | nil =>
    intro st
    cases st <;> simp [utf8DecodeFrom]
  | cons b rest ih =>
    intro st
    have hstart := utf8Start_length b
    have hnext := ih (utf8Start b).2
    cases st with
    | none =>
      simp only [utf8DecodeFrom, List.length_append, List.length_cons, Option.isSome_none,
        Bool.false_eq_true, if_false]
      omega
    | some p =>
      simp only [utf8DecodeFrom, List.length_cons, Option.isSome_some, if_true]
      split
      · split
        · have h16 := utf16Units_length (p.codePoint * 64 + (b - 0x80))
          have h0 := ih none
          simp only [List.length_append, Option.isSome_none, Bool.false_eq_true, if_false] at h0 ⊢
          omega
        · have h1 := ih (some ⟨p.codePoint * 64 + (b - 0x80), p.needed - 1, 0x80, 0xBF⟩)
          simp only [Option.isSome_some, if_true] at h1
          omega
      · simp only [List.length_append, List.length_cons, List.length_nil]
        omega

theorem utf8Decode_length (bytes : List Nat) : (utf8Decode bytes).length ≤ bytes.length := by
  have h := utf8DecodeFrom_length bytes none
  simpa [utf8Decode] using h

theorem decoded_length_le_bytes (chunks : List (List Nat)) :
    (chunks.flatMap utf8Decode).length ≤ (chunks.map List.length).sum := by
  induction chunks with
  | nil => simp
  | cons c rest ih =>
    have hc := utf8Decode_length c
    simp only [List.flatMap_cons, List.length_append, List.map_cons, List.sum_cons]
    omega

theorem euroBytes_length (n : Nat) : (euroBytes n).length = 3 * n := by
  induction n with
  | zero => rfl
  | succ k ih =>
    simp only [euroBytes, List.replicate_succ, List.flatten_cons, List.length_append] at ih ⊢
    simp only [List.length_cons, List.length_nil]
    omega

theorem utf8Decode_euroBytes (n : Nat) : utf8Decode (euroBytes n) = List.replicate n 0x20AC := by
  induction n with
  | zero => rfl
  | succ k ih =>
    have hstep : utf8Decode (euroBytes (k + 1)) = 0x20AC :: utf8Decode (euroBytes k) := rfl
    rw [hstep, ih, List.replicate_succ]

/-! ## Body accumulation: lemmas -/

theorem run_append (webhookUrl : JSString) (x : Exchange) (a b : List RequestEvent) :
    run webhookUrl x (a ++ b) = run webhookUrl (run webhookUrl x a) b := by
  simp [run, List.foldl_append]

/-- Chunks whose text stays within the cap are appended to `body`. -/
theorem run_data_within (webhookUrl : JSString) (chunks : List (List Nat)) :
    ∀ (x : Exchange) (body : JSString), x.phase = .reading body →
      (body ++ chunks.flatMap utf8Decode).length ≤ 5000 →
      run webhookUrl x (chunks.map RequestEvent.data) =
        { x with phase := .reading (body ++ chunks.flatMap utf8Decode) } := by
  induction chunks with
  | nil =>
    intro x body hp _
    cases x
    simp only at hp
    simp [run, hp]
  | cons c rest ih =>
    intro x body hp hlen
    simp only [List.flatMap_cons, List.length_append] at hlen
    have hc : ¬ (body.length + (utf8Decode c).length > 5000) := by omega
    have hstep : step webhookUrl x (.data c) =
        { x with phase := .reading (body ++ utf8Decode c) } := by
      simp only [step, hp, List.length_append, hc, if_false]
    rw [List.map_cons, run_cons, hstep]
    rw [ih _ (body ++ utf8Decode c) rfl (by simp only [List.length_append]; omega)]
    simp [List.flatMap_cons, List.append_assoc]

/-- Chunks whose text exceeds the cap end in the 413 response, and nothing
after the chunk that crosses the cap is delivered. -/
theorem run_data_overflow (webhookUrl : JSString) (after : List RequestEvent)
    (chunks : List (List Nat)) :
    ∀ (x : Exchange) (body : JSString), x.phase = .reading body → body.length ≤ 5000 →
      (body ++ chunks.flatMap utf8Decode).length > 5000 →
      run webhookUrl x (chunks.map RequestEvent.data ++ after) =
        { x with
          phase := .closed
          writes := x.writes ++
            [{ status := 413, body := some (errorBody (js "Payload too large")) }] } := by
  induction chunks with
  | nil =>
    intro x body _ hb hlen
    simp only [List.flatMap_nil, List.append_nil] at hlen
    omega
  | cons c rest ih =>
    intro x body hp hb hlen
    rw [List.map_cons, List.cons_append, run_cons]
    by_cases hc : body.length + (utf8Decode c).length > 5000
    · have hstep : step webhookUrl x (.data c) =
          { x with
            phase := .closed
            writes := x.writes ++
              [{ status := 413, body := some (errorBody (js "Payload too large")) }] } := by
        simp only [step, hp, List.length_append, hc, if_true]
      rw [hstep]
      exact run_closed _ _ _ rfl
    · have hstep : step webhookUrl x (.data c) =
          { x with phase := .reading (body ++ utf8Decode c) } := by
        simp only [step, hp, List.length_append, hc, if_false]
      rw [hstep]
      exact ih _ (body ++ utf8Decode c) rfl (by simp only [List.length_append]; omega)
        (by simpa [List.flatMap_cons, List.append_assoc] using hlen)

/-! ## Body accumulation: claims -/

/-- C13, corrected.  Counterexample to the claim as stated: an admitted request
whose body is one chunk of 6000 bytes, the UTF-8 text of 2000 euro signs, has
a `body.length` of 2000, so it is not answered 413; the `end` callback runs
`JSON.parse`, which throws, and the answer is 400 "Invalid JSON". -/
theorem C13_six_thousand_bytes_not_413 :
    (euroBytes 2000).length = 6000 ∧
      (run sampleUrl admitted [.data (euroBytes 2000),
        .endOfBody (.syntaxError (js "Unexpected token € in JSON at position 0")) .timeout
          sampleIso]).writes =
        [{ status := 400, body := some (errorBody (js "Invalid JSON")) }] := by
  refine ⟨euroBytes_length 2000, ?_⟩
  have hlen : ¬ ([] ++ utf8Decode (euroBytes 2000)).length > 5000 := by
    rw [utf8Decode_euroBytes, List.nil_append, List.length_replicate]
    omega
  have hstep : step sampleUrl admitted (.data (euroBytes 2000)) =
      { admitted with phase := .reading ([] ++ utf8Decode (euroBytes 2000)) } := by
    simp only [step, admitted, hlen, if_false]
  rw [run_cons, hstep]
  rfl

/-- C13, amended: the cap is on `body.length`, the number of UTF-16 code units
of the decoded text, not on bytes.  For every admitted `POST /webhook` request:
when the decoded text of its chunks exceeds 5000 code units, the only response
is 413 "Payload too large", written at the chunk that crosses the cap, and
nothing is forwarded; when the decoded text has at most 5000 code units the
request is never answered 413; and a body of at most 5000 bytes decodes to at
most 5000 code units. -/
theorem C13_payload_cap (webhookUrl : JSString) (chunks : List (List Nat))
    (parsed : ParseOutcome) (net : ForwardOutcome) (nowIso : JSString) :
    ((chunks.flatMap utf8Decode).length > 5000 →
      run webhookUrl admitted (chunks.map RequestEvent.data ++ [.endOfBody parsed net nowIso]) =
        { phase := .closed
          writes := [{ status := 413, body := some (errorBody (js "Payload too large")) }]
          forwarded := none
          modelled := true }) ∧
    ((chunks.flatMap utf8Decode).length ≤ 5000 →
      ∀ r ∈ (run webhookUrl admitted
          (chunks.map RequestEvent.data ++ [.endOfBody parsed net nowIso])).writes,
        r.status ≠ 413) ∧
    ((chunks.map List.length).sum ≤ 5000 → (chunks.flatMap utf8Decode).length ≤ 5000) := by
  refine ⟨?_, ?_, ?_⟩
  · intro hlong
    exact run_data_overflow webhookUrl _ chunks admitted [] rfl (by simp) (by simpa using hlong)
  · intro hshort r hr
    rw [run_append, run_data_within webhookUrl chunks admitted [] rfl (by simpa using hshort)]
      at hr
    simp only [run, List.foldl_cons, List.foldl_nil, step, admitted] at hr
    cases hc : endCallback webhookUrl parsed net nowIso with
    | none => simp [hc] at hr
    | some tr =>
      obtain ⟨hd, hh, hw, _⟩ := endCallback_some _ _ _ _ tr hc
      simp only [hc, hw, List.nil_append, List.mem_singleton] at hr
      subst hr
      rcases handleEnd_status _ _ _ _ hd hh with h1 | h1 | h1 | h1 <;> omega
  · intro hbytes
    exact Nat.le_trans (decoded_length_le_bytes chunks) hbytes

/-! ## One response per request -/

end FeedbackBridge
